import Mathlib

/-
  Verification development for the litemaas model/subscription/API-key
  consistency and cascade engine.

  The definitions below are a shallow embedding of the backend service layer:
  * ModelSyncService (model sync, unavailability cascade),
  * ApiKeyService (key creation, rotation, retrieval, model removal),
  * LiteLLMService.makeRequest (retry loop and circuit breaker).
  Database tables are lists of rows; SQL statements become the corresponding
  list operations; the external proxy and fallible steps are oracles passed
  as parameters.  JavaScript truthiness (`x || null`, `x || false`) is made
  explicit through the js* helper functions.
-/

namespace LiteMaaS

/-- JavaScript `x || null` for an optional integer field: `0` is falsy. -/
def jsOrNullInt : Option Int → Option Int
  | some v => if v = 0 then none else some v
  | none => none

/-- JavaScript `x || null` for an optional string field: `""` is falsy. -/
def jsOrNullStr : Option String → Option String
  | some s => if s = "" then none else some s
  | none => none

/-- JavaScript `a || b` for optional rationals (numbers): `0` is falsy. -/
def jsOrQ (a b : Option Rat) : Option Rat :=
  match a with
  | some v => if v = 0 then b else some v
  | none => b

/-- JavaScript `parseFloat(x || '0')`: a falsy `x` (null or 0) parses as 0. -/
def parseFloatOrZero : Option Rat → Rat
  | some v => if v = 0 then 0 else v
  | none => 0

/-! ## LiteLLM model list entries (proxy side) -/

/-- The `litellm_params` object of a proxy model-list entry. -/
structure LiteLLMParams where
  custom_llm_provider : Option String := none
  model : Option String := none
  input_cost_per_token : Option Rat := none
  output_cost_per_token : Option Rat := none
  api_base : Option String := none
  tpm : Option Int := none
  rpm : Option Int := none
deriving Repr, DecidableEq

/-- The `model_info` object of a proxy model-list entry. -/
structure LiteLLMModelInfo where
  id : Option String := none
  max_tokens : Option Int := none
  input_cost_per_token : Option Rat := none
  output_cost_per_token : Option Rat := none
  supports_vision : Option Bool := none
  supports_function_calling : Option Bool := none
  supports_parallel_function_calling : Option Bool := none
  supports_tool_choice : Option Bool := none
deriving Repr, DecidableEq

/-- One entry of the proxy's model list. -/
structure LiteLLMModel where
  model_name : String
  litellm_params : LiteLLMParams := {}
  model_info : LiteLLMModelInfo := {}
deriving Repr, DecidableEq

/-! ## Database rows -/

/-- A row of the `models` table (fields touched by sync and cascade). -/
structure ModelRow where
  id : String
  name : String := ""
  provider : String := ""
  description : Option String := none
  category : Option String := none
  context_length : Option Int := none
  input_cost_per_token : Option Rat := none
  output_cost_per_token : Option Rat := none
  supports_vision : Bool := false
  supports_function_calling : Bool := false
  supports_tool_choice : Bool := false
  supports_parallel_function_calling : Bool := false
  supports_streaming : Bool := true
  features : List String := []
  availability : String := "available"
  version : Option String := none
  api_base : Option String := none
  tpm : Option Int := none
  rpm : Option Int := none
  max_tokens : Option Int := none
  litellm_model_id : Option String := none
  backend_model_name : Option String := none
  restricted_access : Bool := false
deriving Repr, DecidableEq

/-- A row of the `subscriptions` table. -/
structure SubscriptionRow where
  id : String
  user_id : String
  model_id : String
  status : String
deriving Repr, DecidableEq

/-- A row of the `api_keys` table (fields used by the embedded operations).
    `keyPfx` embeds the `key_prefix` column. -/
structure ApiKeyRow where
  id : String
  user_id : String
  subscription_id : Option String := none
  name : Option String := none
  key_hash : String := ""
  keyPfx : String := ""
  lite_llm_key_value : Option String := none
  is_active : Bool := true
  expires_at : Option Int := none
  created_at : Int := 0
deriving Repr, DecidableEq

/-- A row of the `api_key_models` junction table. -/
structure ApiKeyModelRow where
  api_key_id : String
  model_id : String
deriving Repr, DecidableEq

/-- A row of the `audit_logs` table (fields the cascade writes). -/
structure AuditLogRow where
  user_id : Option String := none
  action : String
  resource_type : String
  resource_id : Option String := none
  success : Bool := true
deriving Repr, DecidableEq

/-- The relational store: one list per table. -/
structure DBState where
  models : List ModelRow := []
  subscriptions : List SubscriptionRow := []
  api_keys : List ApiKeyRow := []
  api_key_models : List ApiKeyModelRow := []
  audit_logs : List AuditLogRow := []
deriving Repr, DecidableEq

/-! ## ModelSyncService.markModelUnavailable -/

/-- Cascade statistics returned by `markModelUnavailable`. -/
structure CascadeStatistics where
  subscriptionsDeactivated : Nat := 0
  apiKeyModelAssociationsRemoved : Nat := 0
  orphanedApiKeysDeactivated : Nat := 0
deriving Repr, DecidableEq

/-- The five statements executed inside the cascade transaction; used to name
    the step at which an injected fault aborts the transaction. -/
inductive CascadeStep
  | flipModel
  | deactivateSubscriptions
  | removeAssociations
  | deactivateOrphans
  | insertAudit
deriving Repr, DecidableEq

/-- WHERE clause of cascade step 1: `id = $1 AND availability != 'unavailable'`. -/
def cascadePred (modelId : String) (m : ModelRow) : Bool :=
  m.id == modelId && m.availability != "unavailable"

/-- Cascade step 1: `UPDATE models SET availability = 'unavailable' WHERE ...`. -/
def flipModels (modelId : String) (models : List ModelRow) : List ModelRow :=
  models.map fun m =>
    if cascadePred modelId m then { m with availability := "unavailable" } else m

/-- WHERE clause of cascade step 2: `model_id = $1 AND status = 'active'`. -/
def subCascadePred (modelId : String) (s : SubscriptionRow) : Bool :=
  s.model_id == modelId && s.status == "active"

/-- Cascade step 2: `UPDATE subscriptions SET status = 'inactive' WHERE ...`. -/
def deactivateSubs (modelId : String) (subs : List SubscriptionRow) : List SubscriptionRow :=
  subs.map fun s => if subCascadePred modelId s then { s with status := "inactive" } else s

/-- Cascade step 3: `DELETE FROM api_key_models WHERE model_id = $1`. -/
def removeAkm (modelId : String) (akm : List ApiKeyModelRow) : List ApiKeyModelRow :=
  akm.filter fun r => r.model_id != modelId

/-- Condition of cascade step 4: an active key with no remaining join rows. -/
def orphanPred (akm : List ApiKeyModelRow) (k : ApiKeyRow) : Bool :=
  (akm.all fun r => r.api_key_id != k.id) && k.is_active

/-- Cascade step 4: `UPDATE api_keys SET is_active = false WHERE id IN (...)`. -/
def deactivateOrphans (akm : List ApiKeyModelRow) (keys : List ApiKeyRow) : List ApiKeyRow :=
  keys.map fun k => if orphanPred akm k then { k with is_active := false } else k

/-- The audit row written by a committed cascade (step 5). -/
def cascadeAuditRow (modelId : String) : AuditLogRow :=
  { action := "MODEL_MARKED_UNAVAILABLE_WITH_CASCADE", resource_type := "MODEL",
    resource_id := some modelId, success := true }

/-- The best-effort audit row written after a rolled-back cascade; `auditOk`
    models whether this insert itself succeeds (its failure is swallowed). -/
def appendFailureAudit (modelId : String) (auditOk : Bool) (st : DBState) : DBState :=
  if auditOk then
    { st with audit_logs := st.audit_logs ++
        [{ action := "MODEL_MARKED_UNAVAILABLE_WITH_CASCADE", resource_type := "MODEL",
           resource_id := some modelId, success := false }] }
  else st

/-- ModelSyncService.markModelUnavailable.  `fault` injects a failure at one of
    the five transaction steps; any fault rolls the transaction back to `st`,
    appends a best-effort failure audit entry and re-throws (`Except.error`).
    If the model is already unavailable the cascade is skipped and the
    transaction commits with all-zero statistics. -/
def markModelUnavailable (fault : Option CascadeStep) (auditOk : Bool)
    (modelId : String) (st : DBState) : Except Unit CascadeStatistics × DBState :=
  if fault = some CascadeStep.flipModel then
    (Except.error (), appendFailureAudit modelId auditOk st)
  else
    let flipped := flipModels modelId st.models
    let matched := st.models.countP (cascadePred modelId)
    if matched = 0 then
      (Except.ok {}, { st with models := flipped })
    else if fault = some CascadeStep.deactivateSubscriptions then
      (Except.error (), appendFailureAudit modelId auditOk st)
    else
      let subsDeactivated := st.subscriptions.countP (subCascadePred modelId)
      let subs := deactivateSubs modelId st.subscriptions
      if fault = some CascadeStep.removeAssociations then
        (Except.error (), appendFailureAudit modelId auditOk st)
      else
        let akmRemoved := st.api_key_models.countP (fun r => r.model_id == modelId)
        let akm := removeAkm modelId st.api_key_models
        if fault = some CascadeStep.deactivateOrphans then
          (Except.error (), appendFailureAudit modelId auditOk st)
        else
          let orphaned := st.api_keys.countP (orphanPred akm)
          let keys := deactivateOrphans akm st.api_keys
          if fault = some CascadeStep.insertAudit then
            (Except.error (), appendFailureAudit modelId auditOk st)
          else
            (Except.ok { subscriptionsDeactivated := subsDeactivated,
                         apiKeyModelAssociationsRemoved := akmRemoved,
                         orphanedApiKeysDeactivated := orphaned },
             { models := flipped, subscriptions := subs, api_keys := keys,
               api_key_models := akm,
               audit_logs := st.audit_logs ++ [cascadeAuditRow modelId] })

/-! ## Lemmas about the cascade building blocks -/

lemma appendFailureAudit_models (modelId : String) (auditOk : Bool) (st : DBState) :
    (appendFailureAudit modelId auditOk st).models = st.models := by
  unfold appendFailureAudit; split <;> rfl

lemma appendFailureAudit_subscriptions (modelId : String) (auditOk : Bool) (st : DBState) :
    (appendFailureAudit modelId auditOk st).subscriptions = st.subscriptions := by
  unfold appendFailureAudit; split <;> rfl

lemma appendFailureAudit_api_keys (modelId : String) (auditOk : Bool) (st : DBState) :
    (appendFailureAudit modelId auditOk st).api_keys = st.api_keys := by
  unfold appendFailureAudit; split <;> rfl

lemma appendFailureAudit_api_key_models (modelId : String) (auditOk : Bool) (st : DBState) :
    (appendFailureAudit modelId auditOk st).api_key_models = st.api_key_models := by
  unfold appendFailureAudit; split <;> rfl

/-- Fault-free run of a cascade whose model row is already unavailable:
    the transaction commits with no side effects and all-zero statistics. -/
lemma markModelUnavailable_none_skip (st : DBState) (modelId : String) (auditOk : Bool)
    (h : st.models.countP (cascadePred modelId) = 0) :
    markModelUnavailable none auditOk modelId st =
      (Except.ok {}, { st with models := flipModels modelId st.models }) := by
  simp [markModelUnavailable, h]

/-- Fault-free run of a cascade that actually flips the model: the explicit
    shape of the committed state and the returned statistics. -/
lemma markModelUnavailable_none_success (st : DBState) (modelId : String) (auditOk : Bool)
    (h : st.models.countP (cascadePred modelId) ≠ 0) :
    markModelUnavailable none auditOk modelId st =
      (Except.ok
        { subscriptionsDeactivated := st.subscriptions.countP (subCascadePred modelId),
          apiKeyModelAssociationsRemoved := st.api_key_models.countP (fun r => r.model_id == modelId),
          orphanedApiKeysDeactivated :=
            st.api_keys.countP (orphanPred (removeAkm modelId st.api_key_models)) },
       { models := flipModels modelId st.models,
         subscriptions := deactivateSubs modelId st.subscriptions,
         api_keys := deactivateOrphans (removeAkm modelId st.api_key_models) st.api_keys,
         api_key_models := removeAkm modelId st.api_key_models,
         audit_logs := st.audit_logs ++ [cascadeAuditRow modelId] }) := by
  simp [markModelUnavailable, h]

/-- Every row of the flipped model list named `modelId` is unavailable. -/
lemma flipModels_unavailable (modelId : String) (l : List ModelRow) :
    ∀ m ∈ flipModels modelId l, m.id = modelId → m.availability = "unavailable" := by
  intro m hm hid
  obtain ⟨m0, hm0, rfl⟩ := List.mem_map.mp hm
  cases hp : cascadePred modelId m0 with
  | true => simp [hp]
  | false =>
      simp [hp] at hid ⊢
      simp [cascadePred, hid] at hp
      exact hp

/-- After flipping, no model row still matches the cascade predicate. -/
lemma flipModels_pred_false (modelId : String) (l : List ModelRow) :
    ∀ m ∈ flipModels modelId l, cascadePred modelId m = false := by
  intro m hm
  by_cases hid : m.id = modelId
  · have := flipModels_unavailable modelId l m hm hid
    simp [cascadePred, this]
  · simp [cascadePred, hid]

/-- Flipping is the identity when no row matches the predicate. -/
lemma flipModels_eq_self (modelId : String) (l : List ModelRow)
    (h : ∀ m ∈ l, cascadePred modelId m = false) : flipModels modelId l = l := by
  unfold flipModels
  induction l with
  | nil => rfl
  | cons a t ih =>
      have ha := h a (by simp)
      simp only [List.map_cons, ha, Bool.false_eq_true, if_false, List.cons.injEq, true_and]
      exact ih fun m hm => h m (by simp [hm])

/-- Regardless of whether the cascade ran or was skipped, a fault-free call
    leaves the models table equal to the flipped list. -/
lemma markModelUnavailable_none_models (st : DBState) (modelId : String) (auditOk : Bool) :
    (markModelUnavailable none auditOk modelId st).2.models = flipModels modelId st.models := by
  by_cases h : st.models.countP (cascadePred modelId) = 0
  · rw [markModelUnavailable_none_skip st modelId auditOk h]
  · rw [markModelUnavailable_none_success st modelId auditOk h]

lemma removeAkm_not_model (modelId : String) (l : List ApiKeyModelRow) :
    ∀ r ∈ removeAkm modelId l, r.model_id ≠ modelId := by
  intro r hr
  have := (List.mem_filter.mp hr).2
  simpa using this

lemma deactivateOrphans_inactive (akm : List ApiKeyModelRow) (keys : List ApiKeyRow) :
    ∀ k ∈ deactivateOrphans akm keys,
      (∀ r ∈ akm, r.api_key_id ≠ k.id) → k.is_active = false := by
  intro k hk hno
  obtain ⟨k0, hk0, rfl⟩ := List.mem_map.mp hk
  cases hp : orphanPred akm k0 with
  | true => simp [hp]
  | false =>
      simp [hp] at hno ⊢
      by_contra hne
      have hact : k0.is_active = true := by
        cases h : k0.is_active
        · exact absurd h hne
        · rfl
      have htrue : orphanPred akm k0 = true := by
        simp only [orphanPred, Bool.and_eq_true, List.all_eq_true, bne_iff_ne, ne_eq]
        exact ⟨fun r hr => hno r hr, hact⟩
      simp [hp] at htrue

/-! ## C1 -/

/-- C1: for every model M on which `markModelUnavailable(M)` completes
    successfully while M was previously available, the committed state has
    M unavailable, every previously-active subscription on M inactive, no
    `api_key_models` row referencing M, and every API key with zero remaining
    model associations deactivated. -/
theorem markModelUnavailable_cascade_postconditions
    (st : DBState) (modelId : String) (auditOk : Bool)
    (hAvail : ∃ m ∈ st.models, m.id = modelId ∧ m.availability = "available") :
    (∃ stats, (markModelUnavailable none auditOk modelId st).1 = Except.ok stats) ∧
    (∀ m ∈ (markModelUnavailable none auditOk modelId st).2.models,
        m.id = modelId → m.availability = "unavailable") ∧
    ((markModelUnavailable none auditOk modelId st).2.subscriptions.length
        = st.subscriptions.length) ∧
    (∀ i (h1 : i < st.subscriptions.length)
        (h2 : i < (markModelUnavailable none auditOk modelId st).2.subscriptions.length),
        (st.subscriptions.get ⟨i, h1⟩).model_id = modelId →
        (st.subscriptions.get ⟨i, h1⟩).status = "active" →
        ((markModelUnavailable none auditOk modelId st).2.subscriptions.get ⟨i, h2⟩).status
          = "inactive") ∧
    (∀ r ∈ (markModelUnavailable none auditOk modelId st).2.api_key_models,
        r.model_id ≠ modelId) ∧
    (∀ k ∈ (markModelUnavailable none auditOk modelId st).2.api_keys,
        (∀ r ∈ (markModelUnavailable none auditOk modelId st).2.api_key_models,
            r.api_key_id ≠ k.id) →
        k.is_active = false) := by
  obtain ⟨m, hmem, hid, havail⟩ := hAvail
  have hpred : cascadePred modelId m = true := by
    simp [cascadePred, hid, havail]
  have hcnt : st.models.countP (cascadePred modelId) ≠ 0 := by
    have := List.countP_pos_iff (p := cascadePred modelId) (l := st.models) |>.mpr ⟨m, hmem, hpred⟩
    omega
  rw [markModelUnavailable_none_success st modelId auditOk hcnt]
  refine ⟨⟨_, rfl⟩, ?_, ?_, ?_, ?_, ?_⟩
  · exact flipModels_unavailable modelId st.models
  · simp [deactivateSubs]
  · intro i h1 h2 hmid hstatus
    simp only [deactivateSubs, List.get_eq_getElem, List.getElem_map]
    have : subCascadePred modelId st.subscriptions[i] = true := by
      simp [subCascadePred, List.get_eq_getElem] at *
      exact ⟨hmid, hstatus⟩
    simp [this]
  · exact removeAkm_not_model modelId st.api_key_models
  · exact deactivateOrphans_inactive (removeAkm modelId st.api_key_models) st.api_keys

/-- Witness for C1: on a concrete one-model state the cascade removes every
    `api_key_models` row for the model. -/
theorem markModelUnavailable_cascade_postconditions_witness :
    ((markModelUnavailable none true "gpt-4o"
        { models := [{ id := "gpt-4o", name := "GPT-4o", provider := "openai" }],
          subscriptions := [{ id := "s1", user_id := "u1", model_id := "gpt-4o",
                              status := "active" }],
          api_keys := [{ id := "k1", user_id := "u1" }],
          api_key_models := [{ api_key_id := "k1", model_id := "gpt-4o" }] }).2.api_key_models.all
      fun r => r.model_id != "gpt-4o") = true := by
  have h := markModelUnavailable_cascade_postconditions
    { models := [{ id := "gpt-4o", name := "GPT-4o", provider := "openai" }],
      subscriptions := [{ id := "s1", user_id := "u1", model_id := "gpt-4o",
                          status := "active" }],
      api_keys := [{ id := "k1", user_id := "u1" }],
      api_key_models := [{ api_key_id := "k1", model_id := "gpt-4o" }] }
    "gpt-4o" true (by decide)
  rcases h with ⟨-, -, -, -, h5, -⟩
  rw [List.all_eq_true]
  intro r hr
  simpa using h5 r hr

/-! ## C2 -/

/-- C2: a second `markModelUnavailable(M)` call directly after a successful
    first call returns all-zero cascade statistics and leaves the database
    state completely unchanged. -/
theorem markModelUnavailable_second_call_no_effects
    (st : DBState) (modelId : String) (auditOk auditOk2 : Bool) :
    (markModelUnavailable none auditOk2 modelId
        (markModelUnavailable none auditOk modelId st).2).1 = Except.ok {} ∧
    (markModelUnavailable none auditOk2 modelId
        (markModelUnavailable none auditOk modelId st).2).2 =
      (markModelUnavailable none auditOk modelId st).2 := by
  set st1 := (markModelUnavailable none auditOk modelId st).2 with hst1
  have hmodels : st1.models = flipModels modelId st.models := by
    rw [hst1, markModelUnavailable_none_models]
  have hpredf : ∀ m ∈ st1.models, cascadePred modelId m = false := by
    rw [hmodels]; exact flipModels_pred_false modelId st.models
  have hcnt : st1.models.countP (cascadePred modelId) = 0 := by
    rw [List.countP_eq_zero]
    intro m hm
    simp [hpredf m hm]
  have hflip : flipModels modelId st1.models = st1.models :=
    flipModels_eq_self modelId st1.models hpredf
  rw [markModelUnavailable_none_skip st1 modelId auditOk2 hcnt]
  exact ⟨rfl, by rw [hflip]⟩

/-! ## C3 -/

/-- C3: a fault at any step that the cascade transaction actually executes
    rolls the whole transaction back — the four data tables are exactly as
    before the call — the error is re-thrown, and a best-effort failure audit
    entry is recorded. -/
theorem markModelUnavailable_step_failure_rolls_back
    (st : DBState) (modelId : String) (s : CascadeStep) (auditOk : Bool)
    (hexec : s = CascadeStep.flipModel ∨
      ∃ m ∈ st.models, m.id = modelId ∧ m.availability ≠ "unavailable") :
    (markModelUnavailable (some s) auditOk modelId st).1 = Except.error () ∧
    (markModelUnavailable (some s) auditOk modelId st).2.models = st.models ∧
    (markModelUnavailable (some s) auditOk modelId st).2.subscriptions = st.subscriptions ∧
    (markModelUnavailable (some s) auditOk modelId st).2.api_key_models = st.api_key_models ∧
    (markModelUnavailable (some s) auditOk modelId st).2.api_keys = st.api_keys ∧
    (markModelUnavailable (some s) auditOk modelId st).2 =
      appendFailureAudit modelId auditOk st := by
  have hroll : markModelUnavailable (some s) auditOk modelId st =
      (Except.error (), appendFailureAudit modelId auditOk st) := by
    rcases hexec with rfl | ⟨m, hmem, hid, havail⟩
    · simp [markModelUnavailable]
    · have hpred : cascadePred modelId m = true := by
        simp [cascadePred, hid]
        exact havail
      have hcnt : st.models.countP (cascadePred modelId) ≠ 0 := by
        have := List.countP_pos_iff (p := cascadePred modelId) (l := st.models)
          |>.mpr ⟨m, hmem, hpred⟩
        omega
      cases s <;> simp [markModelUnavailable, hcnt]
  rw [hroll]
  exact ⟨rfl, appendFailureAudit_models .., appendFailureAudit_subscriptions ..,
    appendFailureAudit_api_key_models .., appendFailureAudit_api_keys .., rfl⟩

/-- Witness for C3: on a concrete state, a fault at the association-removal
    step leaves the `api_key_models` table untouched. -/
theorem markModelUnavailable_step_failure_rolls_back_witness :
    (markModelUnavailable (some CascadeStep.removeAssociations) true "gpt-4o"
        { models := [{ id := "gpt-4o", name := "GPT-4o", provider := "openai" }],
          api_key_models := [{ api_key_id := "k1", model_id := "gpt-4o" }] }).2.api_key_models =
      [{ api_key_id := "k1", model_id := "gpt-4o" }] := by
  have h := markModelUnavailable_step_failure_rolls_back
    { models := [{ id := "gpt-4o", name := "GPT-4o", provider := "openai" }],
      api_key_models := [{ api_key_id := "k1", model_id := "gpt-4o" }] }
    "gpt-4o" CascadeStep.removeAssociations true (Or.inr (by decide))
  exact h.2.2.2.1

/-! ## C10 -/

/-- C10: the orphaned-key deactivation step is not scoped to the cascaded
    model — any active API key with zero `api_key_models` rows (for example a
    legacy single-subscription key that never referenced the model) is
    deactivated whenever any model is cascaded unavailable. -/
theorem orphan_deactivation_unscoped
    (st : DBState) (modelId : String) (auditOk : Bool) (k : ApiKeyRow)
    (hk : k ∈ st.api_keys) (hactive : k.is_active = true)
    (hnorows : ∀ r ∈ st.api_key_models, r.api_key_id ≠ k.id)
    (hAvail : ∃ m ∈ st.models, m.id = modelId ∧ m.availability ≠ "unavailable") :
    { k with is_active := false } ∈ (markModelUnavailable none auditOk modelId st).2.api_keys := by
  obtain ⟨m, hmem, hid, havail⟩ := hAvail
  have hpred : cascadePred modelId m = true := by
    simp [cascadePred, hid]; exact havail
  have hcnt : st.models.countP (cascadePred modelId) ≠ 0 := by
    have := List.countP_pos_iff (p := cascadePred modelId) (l := st.models) |>.mpr ⟨m, hmem, hpred⟩
    omega
  rw [markModelUnavailable_none_success st modelId auditOk hcnt]
  have horph : orphanPred (removeAkm modelId st.api_key_models) k = true := by
    simp only [orphanPred, Bool.and_eq_true, List.all_eq_true, bne_iff_ne, ne_eq]
    refine ⟨fun r hr => ?_, hactive⟩
    exact fun h => hnorows r (List.mem_of_mem_filter hr) h
  have : ({ k with is_active := false } : ApiKeyRow) =
      (fun k0 => if orphanPred (removeAkm modelId st.api_key_models) k0 then
        { k0 with is_active := false } else k0) k := by
    simp [horph]
  rw [this]
  exact List.mem_map_of_mem _ hk

/-- Witness for C10: a concrete legacy key with no join rows, never tied to
    the cascaded model, is deactivated by the cascade. -/
theorem orphan_deactivation_unscoped_witness :
    ({ id := "legacy", user_id := "u2", subscription_id := some "sub-legacy",
       is_active := false } : ApiKeyRow) ∈
      (markModelUnavailable none true "gpt-4o"
        { models := [{ id := "gpt-4o", name := "GPT-4o", provider := "openai" }],
          api_keys := [{ id := "legacy", user_id := "u2",
                         subscription_id := some "sub-legacy" }],
          api_key_models := [] }).2.api_keys := by
  have h := orphan_deactivation_unscoped
    { models := [{ id := "gpt-4o", name := "GPT-4o", provider := "openai" }],
      api_keys := [{ id := "legacy", user_id := "u2", subscription_id := some "sub-legacy" }],
      api_key_models := [] }
    "gpt-4o" true
    { id := "legacy", user_id := "u2", subscription_id := some "sub-legacy" }
    (by decide) rfl (by simp) (by decide)
  exact h

/-! ## ModelSyncService.syncModels: field extraction from a proxy entry -/

/-- Provider extraction: `custom_llm_provider || (model?.includes('/') ?
    model.split('/')[0] : 'unknown')`. -/
def extractProvider (lm : LiteLLMModel) : String :=
  match jsOrNullStr lm.litellm_params.custom_llm_provider with
  | some p => p
  | none =>
      match lm.litellm_params.model with
      | some m => if m.contains '/' then (m.splitOn "/").headD "" else "unknown"
      | none => "unknown"

/-- Backend model name: `model?.includes('/') ? model.split('/').slice(1).join('/')
    : (model || null)`. -/
def extractBackendModelName (lm : LiteLLMModel) : Option String :=
  match lm.litellm_params.model with
  | some m =>
      if m.contains '/' then some (String.intercalate "/" ((m.splitOn "/").drop 1))
      else jsOrNullStr (some m)
  | none => none

/-- Input pricing: `model_info?.input_cost_per_token ||
    litellm_params?.input_cost_per_token`. -/
def extractInputCost (lm : LiteLLMModel) : Option Rat :=
  jsOrQ lm.model_info.input_cost_per_token lm.litellm_params.input_cost_per_token

/-- Output pricing: `model_info?.output_cost_per_token ||
    litellm_params?.output_cost_per_token`. -/
def extractOutputCost (lm : LiteLLMModel) : Option Rat :=
  jsOrQ lm.model_info.output_cost_per_token lm.litellm_params.output_cost_per_token

/-- Feature list built from the capability flags, `chat` always appended. -/
def extractFeatures (lm : LiteLLMModel) : List String :=
  (if lm.model_info.supports_function_calling.getD false then ["function_calling"] else []) ++
  (if lm.model_info.supports_parallel_function_calling.getD false then
      ["parallel_function_calling"] else []) ++
  (if lm.model_info.supports_tool_choice.getD false then ["tool_choice"] else []) ++
  (if lm.model_info.supports_vision.getD false then ["vision"] else []) ++
  ["chat"]

/-- The model row written by both `insertModel` and `updateModel` (they store
    the same extracted values); only `description` differs between the two. -/
def syncedRow (lm : LiteLLMModel) (description : Option String) : ModelRow :=
  { id := lm.model_name,
    name := lm.model_name,
    provider := extractProvider lm,
    description := description,
    category := some "Language Model",
    context_length := lm.model_info.max_tokens,
    input_cost_per_token := extractInputCost lm,
    output_cost_per_token := extractOutputCost lm,
    supports_vision := lm.model_info.supports_vision.getD false,
    supports_function_calling := lm.model_info.supports_function_calling.getD false,
    supports_tool_choice := lm.model_info.supports_tool_choice.getD false,
    supports_parallel_function_calling :=
      lm.model_info.supports_parallel_function_calling.getD false,
    supports_streaming := true,
    features := extractFeatures lm,
    availability := "available",
    version := some "1.0",
    api_base := lm.litellm_params.api_base,
    tpm := lm.litellm_params.tpm,
    rpm := lm.litellm_params.rpm,
    max_tokens := lm.model_info.max_tokens,
    litellm_model_id := lm.model_info.id,
    backend_model_name := extractBackendModelName lm }

/-- ModelSyncService.insertModel: INSERT of a new catalog row (description
    deliberately left null for synced models). -/
def insertModel (lm : LiteLLMModel) (st : DBState) : DBState :=
  { st with models := st.models ++ [syncedRow lm none] }

/-- Floating-point epsilon used by the pricing comparison. -/
def EPSILON : Rat := 1 / 10000000000

/-- ModelSyncService.modelsEqual: the field-by-field equality check deciding
    whether an existing row needs an update.  Note the `x || null` coalescing
    on the comparison side for context length, admin fields and the internal
    model id, while the stored side holds the raw written value. -/
def modelsEqual (existing : ModelRow) (lm : LiteLLMModel) : Bool :=
  existing.availability == "available" &&
  existing.context_length == jsOrNullInt lm.model_info.max_tokens &&
  decide (|parseFloatOrZero existing.input_cost_per_token -
            parseFloatOrZero (extractInputCost lm)| < EPSILON) &&
  decide (|parseFloatOrZero existing.output_cost_per_token -
            parseFloatOrZero (extractOutputCost lm)| < EPSILON) &&
  existing.supports_vision == lm.model_info.supports_vision.getD false &&
  existing.supports_function_calling == lm.model_info.supports_function_calling.getD false &&
  existing.supports_tool_choice == lm.model_info.supports_tool_choice.getD false &&
  existing.supports_parallel_function_calling ==
    lm.model_info.supports_parallel_function_calling.getD false &&
  existing.supports_streaming == true &&
  existing.features == extractFeatures lm &&
  existing.version == some "1.0" &&
  existing.api_base == jsOrNullStr lm.litellm_params.api_base &&
  existing.backend_model_name == jsOrNullStr (extractBackendModelName lm) &&
  existing.tpm == jsOrNullInt lm.litellm_params.tpm &&
  existing.rpm == jsOrNullInt lm.litellm_params.rpm &&
  existing.max_tokens == jsOrNullInt lm.model_info.max_tokens &&
  existing.litellm_model_id == jsOrNullStr lm.model_info.id

/-- The per-row effect of the `updateModel` UPDATE statement: every row with
    the synced id is rewritten to the extracted values; the description is
    `COALESCE(preservedDescription, description)` with the row's own current
    value as fallback, and the restriction flag (not part of the SET list) is
    untouched. -/
def updateModelRow (lm : LiteLLMModel) (preservedDescription : Option String)
    (m : ModelRow) : ModelRow :=
  if m.id == lm.model_name then
    { syncedRow lm
        (match preservedDescription with
         | some d => some d
         | none => m.description) with
      restricted_access := m.restricted_access }
  else m

/-- The write half of `updateModel`: reads the current description to
    preserve user-entered text, then runs the UPDATE. -/
def updateModelWrite (lm : LiteLLMModel) (st : DBState) : DBState :=
  { st with models := st.models.map (updateModelRow lm
      (jsOrNullStr ((st.models.find? fun m => m.id == lm.model_name).bind
        fun e => e.description))) }

/-- ModelSyncService.updateModel: skips the write when `forceUpdate` is false
    and `modelsEqual` reports no change for the queried row; otherwise
    rewrites every synced field.  Returns whether an update was performed. -/
def updateModel (lm : LiteLLMModel) (forceUpdate : Bool) (st : DBState) : Bool × DBState :=
  if !forceUpdate &&
      (match st.models.find? fun m => m.id == lm.model_name with
       | some e => modelsEqual e lm
       | none => false) then
    (false, st)
  else
    (true, updateModelWrite lm st)

/-- Per-model loop of `syncModels`: insert entries that are new, update the
    rest, counting `(newModels, updatedModels)`.  `existingModelIds` is the
    id set captured from the database before the loop, as in the source. -/
def processModels (existingModelIds : List String) (forceUpdate : Bool) :
    List LiteLLMModel → DBState → Nat × Nat × DBState
  | [], st => (0, 0, st)
  | lm :: rest, st =>
      if existingModelIds.contains lm.model_name then
        ((processModels existingModelIds forceUpdate rest (updateModel lm forceUpdate st).2).1,
         (if (updateModel lm forceUpdate st).1 then 1 else 0) +
           (processModels existingModelIds forceUpdate rest
             (updateModel lm forceUpdate st).2).2.1,
         (processModels existingModelIds forceUpdate rest (updateModel lm forceUpdate st).2).2.2)
      else
        ((processModels existingModelIds forceUpdate rest (insertModel lm st)).1 + 1,
         (processModels existingModelIds forceUpdate rest (insertModel lm st)).2.1,
         (processModels existingModelIds forceUpdate rest (insertModel lm st)).2.2)

/-- Sum of two cascade statistics records. -/
def addStats (a b : CascadeStatistics) : CascadeStatistics :=
  { subscriptionsDeactivated := a.subscriptionsDeactivated + b.subscriptionsDeactivated,
    apiKeyModelAssociationsRemoved :=
      a.apiKeyModelAssociationsRemoved + b.apiKeyModelAssociationsRemoved,
    orphanedApiKeysDeactivated := a.orphanedApiKeysDeactivated + b.orphanedApiKeysDeactivated }

/-- Mark-unavailable loop of `syncModels` over the ids absent from the proxy
    list, accumulating the unavailable count and cascade statistics. -/
def markUnavailableLoop : List String → DBState → Nat × CascadeStatistics × DBState
  | [], st => (0, {}, st)
  | id :: rest, st =>
      match (markModelUnavailable none true id st).1 with
      | Except.ok rs =>
          (1 + (markUnavailableLoop rest (markModelUnavailable none true id st).2).1,
           addStats rs (markUnavailableLoop rest (markModelUnavailable none true id st).2).2.1,
           (markUnavailableLoop rest (markModelUnavailable none true id st).2).2.2)
      | Except.error _ =>
          ((markUnavailableLoop rest (markModelUnavailable none true id st).2).1,
           (markUnavailableLoop rest (markModelUnavailable none true id st).2).2.1,
           (markUnavailableLoop rest (markModelUnavailable none true id st).2).2.2)

/-- Result record of a synchronization run. -/
structure ModelSyncResult where
  success : Bool
  totalModels : Nat
  newModels : Nat
  updatedModels : Nat
  unavailableModels : Nat
  cascadeStatistics : CascadeStatistics
deriving Repr, DecidableEq

/-- ModelSyncService.syncModels over a proxy model list `litellmModels`:
    partition into insert/update, then cascade every locally known id absent
    from the proxy list (when `markUnavailable` is set). -/
def syncModels (litellmModels : List LiteLLMModel) (forceUpdate markUnavailable : Bool)
    (st : DBState) : ModelSyncResult × DBState :=
  let existingModelIds := st.models.map fun m => m.id
  let litellmModelIds := litellmModels.map fun lm => lm.model_name
  let processed := processModels existingModelIds forceUpdate litellmModels st
  let unavailableIds := existingModelIds.filter fun id => !litellmModelIds.contains id
  let marked :=
    if markUnavailable then markUnavailableLoop unavailableIds processed.2.2
    else (0, {}, processed.2.2)
  ({ success := true,
     totalModels := litellmModels.length,
     newModels := processed.1,
     updatedModels := processed.2.1,
     unavailableModels := marked.1,
     cascadeStatistics := marked.2.1 }, marked.2.2)

/-! ## Lemmas about the sync loop -/

lemma jsOrNullInt_eq_self {x : Option Int} (h : x ≠ some 0) : jsOrNullInt x = x := by
  cases x with
  | none => rfl
  | some v =>
      have : v ≠ 0 := fun e => h (by rw [e])
      simp [jsOrNullInt, this]

lemma jsOrNullStr_eq_self {x : Option String} (h : x ≠ some "") : jsOrNullStr x = x := by
  cases x with
  | none => rfl
  | some v =>
      have : v ≠ "" := fun e => h (by rw [e])
      simp [jsOrNullStr, this]

/-- Stability condition under which the values written by a sync survive the
    coalescing (`x || null`) comparison of `modelsEqual` unchanged: none of the
    raw written admin fields is a falsy non-null value (`0` or `""`). -/
def syncStable (lm : LiteLLMModel) : Prop :=
  lm.model_info.max_tokens ≠ some 0 ∧
  lm.litellm_params.tpm ≠ some 0 ∧
  lm.litellm_params.rpm ≠ some 0 ∧
  lm.litellm_params.api_base ≠ some "" ∧
  lm.model_info.id ≠ some "" ∧
  extractBackendModelName lm ≠ some ""

instance (lm : LiteLLMModel) : Decidable (syncStable lm) := by
  unfold syncStable; infer_instance

/-- The restriction flag plays no role in the sync equality check. -/
lemma modelsEqual_restricted (r : ModelRow) (ra : Bool) (lm : LiteLLMModel) :
    modelsEqual { r with restricted_access := ra } lm = modelsEqual r lm := rfl

/-- A freshly written sync row compares equal to the proxy entry it was
    written from, for stable entries. -/
lemma modelsEqual_syncedRow (lm : LiteLLMModel) (d : Option String) (h : syncStable lm) :
    modelsEqual (syncedRow lm d) lm = true := by
  obtain ⟨h1, h2, h3, h4, h5, h6⟩ := h
  simp only [modelsEqual, syncedRow, jsOrNullInt_eq_self h1, jsOrNullInt_eq_self h2,
    jsOrNullInt_eq_self h3, jsOrNullStr_eq_self h4, jsOrNullStr_eq_self h5,
    jsOrNullStr_eq_self h6, sub_self, abs_zero, Bool.and_eq_true, beq_self_eq_true,
    decide_eq_true_eq, and_true, true_and]
  refine ⟨?_, ?_⟩ <;> simp [EPSILON]

/-- First `models` row with a given id, as returned by `queryOne`. -/
def firstRow (st : DBState) (n : String) : Option ModelRow :=
  st.models.find? fun m => m.id == n

lemma find?_map_pres {α : Type} (f : α → α) (p : α → Bool) (h : ∀ x, p (f x) = p x)
    (l : List α) : (l.map f).find? p = (l.find? p).map f := by
  induction l with
  | nil => rfl
  | cons a t ih =>
      cases hpa : p a
      · simp [List.find?_cons, h a, hpa, ih]
      · simp [List.find?_cons, h a, hpa]

lemma find?_append_some {α : Type} {p : α → Bool} {l1 l2 : List α} {a : α}
    (h : l1.find? p = some a) : (l1 ++ l2).find? p = some a := by
  induction l1 with
  | nil => simp [List.find?] at h
  | cons b t ih =>
      cases hpb : p b
      · simp only [List.find?_cons, hpb] at h
        simp [List.find?_cons, hpb, ih h]
      · simp only [List.find?_cons, hpb] at h
        simp [List.find?_cons, hpb, h]

lemma find?_append_none {α : Type} {p : α → Bool} {l1 l2 : List α}
    (h : l1.find? p = none) : (l1 ++ l2).find? p = l2.find? p := by
  induction l1 with
  | nil => rfl
  | cons b t ih =>
      cases hpb : p b
      · simp only [List.find?_cons, hpb] at h
        simp [List.find?_cons, hpb, ih h]
      · simp [List.find?_cons, hpb] at h

/-- The row-update function of `updateModel` never changes a row's id. -/
lemma updateModelRow_id (lm : LiteLLMModel) (d : Option String) (m : ModelRow) :
    (updateModelRow lm d m).id = m.id := by
  unfold updateModelRow
  cases hid : m.id == lm.model_name
  · simp
  · have : m.id = lm.model_name := by simpa using hid
    simp [hid, syncedRow, this]

/-- A row with a different id is untouched by the update function. -/
lemma updateModelRow_ne (lm : LiteLLMModel) (d : Option String) (m : ModelRow)
    (h : m.id ≠ lm.model_name) : updateModelRow lm d m = m := by
  unfold updateModelRow
  have : (m.id == lm.model_name) = false := by simpa using h
  simp [this]

lemma firstRow_updateModelWrite_ne (lm : LiteLLMModel) (st : DBState) (n : String)
    (h : lm.model_name ≠ n) :
    firstRow (updateModelWrite lm st) n = firstRow st n := by
  unfold updateModelWrite firstRow
  rw [find?_map_pres _ _ (fun m => by rw [updateModelRow_id])]
  cases hf : st.models.find? fun m => m.id == n with
  | none => rfl
  | some x =>
      have hxn : x.id = n := by
        have := List.find?_some hf
        simpa using this
      have hxx := updateModelRow_ne lm
        (jsOrNullStr ((st.models.find? fun m => m.id == lm.model_name).bind
          fun e => e.description)) x (by rw [hxn]; exact fun e => h e.symm)
      simp [hxx]

lemma firstRow_updateModel_ne (lm : LiteLLMModel) (f : Bool) (st : DBState) (n : String)
    (h : lm.model_name ≠ n) :
    firstRow (updateModel lm f st).2 n = firstRow st n := by
  unfold updateModel
  split
  · rfl
  · exact firstRow_updateModelWrite_ne lm st n h

lemma firstRow_insertModel_ne (lm : LiteLLMModel) (st : DBState) (n : String)
    (h : lm.model_name ≠ n) :
    firstRow (insertModel lm st) n = firstRow st n := by
  unfold insertModel firstRow
  cases hf : st.models.find? fun m => m.id == n with
  | none =>
      rw [find?_append_none hf]
      simp [List.find?_cons, syncedRow, h]
  | some x => simp [find?_append_some hf, hf]

lemma firstRow_markModelUnavailable_ne (mid : String) (auditOk : Bool) (st : DBState)
    (n : String) (h : mid ≠ n) :
    firstRow (markModelUnavailable none auditOk mid st).2 n = firstRow st n := by
  unfold firstRow
  rw [markModelUnavailable_none_models]
  unfold flipModels
  have hpres : ∀ m : ModelRow,
      (((if cascadePred mid m then { m with availability := "unavailable" } else m).id == n))
        = (m.id == n) := by
    intro m
    cases hp : cascadePred mid m <;> simp [hp]
  rw [find?_map_pres _ _ hpres]
  cases hf : st.models.find? fun m => m.id == n with
  | none => rfl
  | some x =>
      have hxn : x.id = n := by
        have h2 := List.find?_some hf
        simpa using h2
      have hmid : (x.id == mid) = false := by
        simp [hxn]
        exact fun e => h e.symm
      have hcp : cascadePred mid x = false := by
        simp [cascadePred, hmid]
      simp [hcp]

lemma firstRow_markUnavailableLoop_not_mem (ids : List String) (st : DBState) (n : String)
    (h : n ∉ ids) :
    firstRow (markUnavailableLoop ids st).2.2 n = firstRow st n := by
  induction ids generalizing st with
  | nil => rfl
  | cons id rest ih =>
      have hne : id ≠ n := fun e => h (e ▸ List.mem_cons_self id rest)
      have hrest : n ∉ rest := fun hr => h (List.mem_cons_of_mem id hr)
      simp only [markUnavailableLoop]
      cases hr : (markModelUnavailable none true id st).1 <;>
        simp only <;>
        rw [ih _ hrest, firstRow_markModelUnavailable_ne id true st n hne]

lemma firstRow_processModels_ne (ids : List String) (f : Bool) (L : List LiteLLMModel)
    (st : DBState) (n : String) (h : ∀ lm ∈ L, lm.model_name ≠ n) :
    firstRow (processModels ids f L st).2.2 n = firstRow st n := by
  induction L generalizing st with
  | nil => rfl
  | cons lm0 rest ih =>
      have h0 : lm0.model_name ≠ n := h lm0 (List.mem_cons_self ..)
      have hrest : ∀ lm ∈ rest, lm.model_name ≠ n :=
        fun lm hm => h lm (List.mem_cons_of_mem lm0 hm)
      cases hc : ids.contains lm0.model_name
      · simp only [processModels, hc, Bool.false_eq_true, if_false]
        rw [ih _ hrest, firstRow_insertModel_ne lm0 st n h0]
      · simp only [processModels, hc, if_true]
        rw [ih _ hrest, firstRow_updateModel_ne lm0 f st n h0]

/-- Running `updateModel` without `forceUpdate` on a state that has a row for
    the synced id leaves a first row that compares equal to the proxy entry
    (either the check already passed, or the row was rewritten to the synced
    values). -/
lemma updateModel_firstRow_self (lm : LiteLLMModel) (st : DBState)
    (hstable : syncStable lm) (e0 : ModelRow)
    (hsome : firstRow st lm.model_name = some e0) :
    ∃ e, firstRow (updateModel lm false st).2 lm.model_name = some e ∧
      modelsEqual e lm = true := by
  unfold firstRow at hsome
  have he0id : e0.id = lm.model_name := by
    have h2 := List.find?_some hsome
    simpa using h2
  have hbeq : (e0.id == lm.model_name) = true := by simp [he0id]
  have hwrite : firstRow (updateModelWrite lm st) lm.model_name =
      some (updateModelRow lm
        (jsOrNullStr ((st.models.find? fun m => m.id == lm.model_name).bind
          fun e => e.description)) e0) := by
    unfold updateModelWrite firstRow
    rw [find?_map_pres _ _ (fun m => by rw [updateModelRow_id]), hsome]
    rfl
  have hrow : ∃ d, updateModelRow lm
      (jsOrNullStr ((st.models.find? fun m => m.id == lm.model_name).bind
        fun e => e.description)) e0 =
      { syncedRow lm d with restricted_access := e0.restricted_access } := by
    unfold updateModelRow
    rw [if_pos hbeq]
    exact ⟨_, rfl⟩
  unfold updateModel
  rw [hsome]
  cases heq : modelsEqual e0 lm
  · simp only [heq, Bool.not_false, Bool.true_and, Bool.false_eq_true, if_false]
    obtain ⟨d, hd⟩ := hrow
    refine ⟨_, hwrite, ?_⟩
    rw [hd, modelsEqual_restricted]
    exact modelsEqual_syncedRow lm d hstable
  · simp only [heq, Bool.not_false, Bool.true_and, if_true]
    exact ⟨e0, by unfold firstRow; rw [hsome], heq⟩

/-- After the per-model sync loop, the first row of every processed entry
    compares equal to that entry (given distinct names and stable entries). -/
lemma processModels_synced (st0ids : List String) :
    ∀ (L : List LiteLLMModel) (st : DBState),
    (∀ lm ∈ L, syncStable lm) →
    ((L.map fun lm => lm.model_name).Nodup) →
    (∀ lm ∈ L, st0ids.contains lm.model_name = true →
      (firstRow st lm.model_name).isSome = true) →
    (∀ lm ∈ L, st0ids.contains lm.model_name = false →
      firstRow st lm.model_name = none) →
    ∀ lm ∈ L, ∃ e, firstRow (processModels st0ids false L st).2.2 lm.model_name = some e ∧
      modelsEqual e lm = true := by
  intro L
  induction L with
  | nil => intro st _ _ _ _ lm hlm; cases hlm
  | cons lm0 rest ih =>
      intro st hstable hnames hsome hnone lm hlm
      have hnodup : (∀ x ∈ rest, ¬ x.model_name = lm0.model_name) ∧
          (rest.map fun lm => lm.model_name).Nodup := by simpa using hnames
      have hrest_ne : ∀ lm' ∈ rest, lm'.model_name ≠ lm0.model_name :=
        fun lm' hm => hnodup.1 lm' hm
      have hrest_ne' : ∀ lm' ∈ rest, lm0.model_name ≠ lm'.model_name :=
        fun lm' hm e => hrest_ne lm' hm e.symm
      cases hc : st0ids.contains lm0.model_name
      · -- new model: insert
        simp only [processModels, hc, Bool.false_eq_true, if_false]
        have hnone0 : firstRow st lm0.model_name = none :=
          hnone lm0 (List.mem_cons_self ..) hc
        have hins : firstRow (insertModel lm0 st) lm0.model_name
            = some (syncedRow lm0 none) := by
          unfold insertModel firstRow
          unfold firstRow at hnone0
          rw [find?_append_none hnone0]
          simp [List.find?_cons, syncedRow]
        rcases List.mem_cons.mp hlm with rfl | hlm2
        · refine ⟨syncedRow lm none, ?_, modelsEqual_syncedRow lm none
            (hstable lm (List.mem_cons_self ..))⟩
          rw [firstRow_processModels_ne _ _ _ _ _ hrest_ne, hins]
        · refine ih (insertModel lm0 st)
            (fun lm' hm => hstable lm' (List.mem_cons_of_mem _ hm))
            hnodup.2 ?_ ?_ lm hlm2
          · intro lm' hm hc'
            rw [firstRow_insertModel_ne lm0 st _ (hrest_ne' lm' hm)]
            exact hsome lm' (List.mem_cons_of_mem _ hm) hc'
          · intro lm' hm hc'
            rw [firstRow_insertModel_ne lm0 st _ (hrest_ne' lm' hm)]
            exact hnone lm' (List.mem_cons_of_mem _ hm) hc'
      · -- existing model: update or skip
        simp only [processModels, hc, if_true]
        have hsome0 := hsome lm0 (List.mem_cons_self ..) hc
        obtain ⟨e0, he0⟩ := Option.isSome_iff_exists.mp hsome0
        obtain ⟨e1, he1, heq1⟩ :=
          updateModel_firstRow_self lm0 st (hstable lm0 (List.mem_cons_self ..)) e0 he0
        rcases List.mem_cons.mp hlm with rfl | hlm2
        · refine ⟨e1, ?_, heq1⟩
          rw [firstRow_processModels_ne _ _ _ _ _ hrest_ne, he1]
        · refine ih (updateModel lm0 false st).2
            (fun lm' hm => hstable lm' (List.mem_cons_of_mem _ hm))
            hnodup.2 ?_ ?_ lm hlm2
          · intro lm' hm hc'
            rw [firstRow_updateModel_ne lm0 false st _ (hrest_ne' lm' hm)]
            exact hsome lm' (List.mem_cons_of_mem _ hm) hc'
          · intro lm' hm hc'
            rw [firstRow_updateModel_ne lm0 false st _ (hrest_ne' lm' hm)]
            exact hnone lm' (List.mem_cons_of_mem _ hm) hc'

/-- When every entry is already present and compares equal, the per-model
    loop performs no write and counts zero updates. -/
lemma processModels_skip_all (ids : List String) :
    ∀ (L : List LiteLLMModel) (st : DBState),
    (∀ lm ∈ L, ids.contains lm.model_name = true ∧
      ∃ e, firstRow st lm.model_name = some e ∧ modelsEqual e lm = true) →
    processModels ids false L st = (0, 0, st) := by
  intro L
  induction L with
  | nil => intro st _; rfl
  | cons lm0 rest ih =>
      intro st h
      obtain ⟨hc, e, he, heq⟩ := h lm0 (List.mem_cons_self ..)
      have hupd : updateModel lm0 false st = (false, st) := by
        unfold updateModel
        unfold firstRow at he
        rw [he]
        simp [heq]
      simp only [processModels, hc, if_true, hupd]
      rw [ih st (fun lm hm => h lm (List.mem_cons_of_mem _ hm))]
      rfl

/-! ## C9 -/

/-- A proxy entry whose `litellm_params.tpm` is the falsy number `0`: the
    first sync stores `tpm = 0`, while `modelsEqual` compares the stored `0`
    against `0 || null = null` and reports a difference forever after. -/
def c9Model : LiteLLMModel := { model_name := "m1", litellm_params := { tpm := some 0 } }

/-- Counterexample to C9: two consecutive `syncModels` runs over the same
    one-entry proxy list report a nonzero `updatedModels` on the second run. -/
theorem syncModels_second_run_counterexample :
    (syncModels [c9Model] false true
      (syncModels [c9Model] false true {}).2).1.updatedModels ≠ 0 := by
  have hne : modelsEqual (syncedRow c9Model none) c9Model = false := by
    simp [modelsEqual, syncedRow, c9Model, jsOrNullInt]
  have hupd : updateModel c9Model false (syncModels [c9Model] false true {}).2 =
      (true, updateModelWrite c9Model (syncModels [c9Model] false true {}).2) := by
    unfold updateModel
    rw [show ((syncModels [c9Model] false true {}).2.models.find?
        fun m => m.id == c9Model.model_name) = some (syncedRow c9Model none) from rfl]
    simp [hne]
  have hrun2 : (syncModels [c9Model] false true
      (syncModels [c9Model] false true {}).2).1.updatedModels =
      (if (updateModel c9Model false (syncModels [c9Model] false true {}).2).1 then 1 else 0) +
        (processModels ((syncModels [c9Model] false true {}).2.models.map fun m => m.id)
          false [] (updateModel c9Model false (syncModels [c9Model] false true {}).2).2).2.1 :=
    rfl
  rw [hrun2, hupd]
  simp [processModels]

/-- C9 (amended): for a proxy list with distinct model names in which no
    entry carries a falsy-but-non-null admin field (`0`-valued max_tokens,
    tpm or rpm; empty-string api_base, internal id or backend model name),
    the second of two consecutive `syncModels` runs reports
    `updatedModels = 0`. -/
theorem syncModels_second_run_no_updates
    (L : List LiteLLMModel) (st0 : DBState)
    (hnames : (L.map fun lm => lm.model_name).Nodup)
    (hstable : ∀ lm ∈ L, syncStable lm) :
    (syncModels L false true (syncModels L false true st0).2).1.updatedModels = 0 := by
  have hsome0 : ∀ lm ∈ L, (st0.models.map fun m => m.id).contains lm.model_name = true →
      (firstRow st0 lm.model_name).isSome = true := by
    intro lm hm hc
    have hmem : lm.model_name ∈ st0.models.map fun m => m.id := by
      simpa using hc
    obtain ⟨m, hm0, hid⟩ := List.mem_map.mp hmem
    unfold firstRow
    rw [List.find?_isSome]
    exact ⟨m, hm0, by simp [hid]⟩
  have hnone0 : ∀ lm ∈ L, (st0.models.map fun m => m.id).contains lm.model_name = false →
      firstRow st0 lm.model_name = none := by
    intro lm hm hc
    unfold firstRow
    rw [List.find?_eq_none]
    intro m hm0 hbeq
    have hid : m.id = lm.model_name := by simpa using hbeq
    have : lm.model_name ∈ st0.models.map fun m => m.id := by
      exact hid ▸ List.mem_map_of_mem _ hm0
    rw [show ((st0.models.map fun m => m.id).contains lm.model_name) = true by simpa using this]
      at hc
    cases hc
  have hproc := processModels_synced (st0.models.map fun m => m.id) L st0
    hstable hnames hsome0 hnone0
  have run1_2 : (syncModels L false true st0).2 =
      (markUnavailableLoop
        ((st0.models.map fun m => m.id).filter
          fun id => !(L.map fun lm => lm.model_name).contains id)
        (processModels (st0.models.map fun m => m.id) false L st0).2.2).2.2 := rfl
  have hnotin : ∀ lm ∈ L, lm.model_name ∉
      ((st0.models.map fun m => m.id).filter
        fun id => !(L.map fun lm => lm.model_name).contains id) := by
    intro lm hm hmem
    have hf := (List.mem_filter.mp hmem).2
    have hn : lm.model_name ∈ L.map fun lm => lm.model_name := List.mem_map_of_mem _ hm
    rw [show ((L.map fun lm => lm.model_name).contains lm.model_name) = true by simpa using hn]
      at hf
    cases hf
  have hst1 : ∀ lm ∈ L, ∃ e,
      firstRow (syncModels L false true st0).2 lm.model_name = some e ∧
        modelsEqual e lm = true := by
    intro lm hm
    obtain ⟨e, he, heq⟩ := hproc lm hm
    refine ⟨e, ?_, heq⟩
    rw [run1_2, firstRow_markUnavailableLoop_not_mem _ _ _ (hnotin lm hm), he]
  have hcont1 : ∀ lm ∈ L,
      (((syncModels L false true st0).2.models.map fun m => m.id).contains lm.model_name)
        = true := by
    intro lm hm
    obtain ⟨e, he, -⟩ := hst1 lm hm
    unfold firstRow at he
    have hmeme : e ∈ (syncModels L false true st0).2.models := List.mem_of_find?_eq_some he
    have hide : e.id = lm.model_name := by
      have h2 := List.find?_some he
      simpa using h2
    have : lm.model_name ∈ (syncModels L false true st0).2.models.map fun m => m.id :=
      hide ▸ List.mem_map_of_mem _ hmeme
    simpa using this
  have hskip := processModels_skip_all
    ((syncModels L false true st0).2.models.map fun m => m.id) L
    (syncModels L false true st0).2
    (fun lm hm => ⟨hcont1 lm hm, hst1 lm hm⟩)
  have hrfl : (syncModels L false true (syncModels L false true st0).2).1.updatedModels =
      (processModels ((syncModels L false true st0).2.models.map fun m => m.id) false L
        (syncModels L false true st0).2).2.1 := rfl
  rw [hrfl, hskip]

/-- Witness for the amended C9 on a concrete stable one-entry proxy list. -/
theorem syncModels_second_run_no_updates_witness :
    (syncModels [{ model_name := "m2", litellm_params := { tpm := some 100 } }] false true
      (syncModels [{ model_name := "m2", litellm_params := { tpm := some 100 } }]
        false true {}).2).1.updatedModels = 0 :=
  syncModels_second_run_no_updates _ _ (by decide) (by decide)

/-! ## ApiKeyService -/

/-- Error taxonomy of the service layer (BaseService create*Error helpers);
    `proxyFailure` stands for a re-thrown proxy error and `dbFailure` for a
    re-thrown persistence error. -/
inductive ServiceError
  | notFound (resource : String)
  | validation (message : String) (field : String) (invalid : List String)
  | proxyFailure
  | dbFailure
deriving Repr, DecidableEq

/-- KEY_PREFIX constant `sk-`. -/
def KEY_PREFIX_STR : String := "sk-"

/-- PREFIX_LENGTH constant: first 4 characters for display. -/
def PREFIX_LENGTH : Nat := 4

/-- extractKeyPrefix: `key.substring(0, KEY_PREFIX.length + PREFIX_LENGTH)`. -/
def extractKeyPfx (key : String) : String :=
  key.take (KEY_PREFIX_STR.length + PREFIX_LENGTH)

/-- Splitting a character list on commas (accumulator of the current item,
    reversed). -/
def splitCommaAux : List Char → List Char → List String
  | [], acc => [String.mk acc.reverse]
  | c :: rest, acc =>
      if c = ',' then String.mk acc.reverse :: splitCommaAux rest []
      else splitCommaAux rest (c :: acc)

/-- How postgres reads the `{a,b,...}::text[]` literal that the service
    builds with `modelIds.join(',')`: the payload split on commas (quoting is
    never produced by the join). -/
def parseTextArrayLiteral (s : String) : List String :=
  splitCommaAux s.data []

/-- Outcome of the proxy `generateApiKey` call inside `createApiKey`. -/
inductive GenOutcome
  | throws
  | noKey
  | keyValue (value : String)
deriving Repr, DecidableEq

/-- ApiKeyService.createApiKey for the multi-model request shape, mock mode
    off.  `hash` embeds `hashApiKey` (sha256 hex digest); `genOutcome` is the
    proxy key-generation result; `dbOk` tells whether the insert transaction
    commits (otherwise ROLLBACK plus best-effort proxy-side delete leaves the
    local tables untouched); `newKeyId` is the generated row id.  The
    subscription validation query filters on the user's active subscriptions
    joined against `models`, with the requested ids passed as the
    `{a,b,...}::text[]` literal built by `modelIds.join(',')`. -/
def createApiKey (hash : String → String) (genOutcome : GenOutcome) (dbOk : Bool)
    (newKeyId userId : String) (modelIds : List String) (name : Option String)
    (st : DBState) : Except ServiceError ApiKeyRow × DBState :=
  if modelIds.isEmpty then
    (Except.error (ServiceError.validation "At least one model must be selected"
      "modelIds" modelIds), st)
  else
    let parsedIds := parseTextArrayLiteral (String.intercalate "," modelIds)
    let validModelIds := (st.subscriptions.filter fun s =>
      s.user_id == userId && s.status == "active" && parsedIds.contains s.model_id &&
        st.models.any fun m => m.id == s.model_id).map fun s => s.model_id
    let invalidModels := modelIds.filter fun id => !validModelIds.contains id
    if !invalidModels.isEmpty then
      (Except.error (ServiceError.validation
        ("You do not have active subscriptions for the following models: " ++
          String.intercalate ", " invalidModels) "modelIds" invalidModels), st)
    else if 10 ≤ st.api_keys.countP fun k => k.user_id == userId && k.is_active then
      (Except.error (ServiceError.validation "Maximum 10 active API keys allowed per user"
        "activeKeysCount" []), st)
    else
      match genOutcome with
      | GenOutcome.throws => (Except.error ServiceError.proxyFailure, st)
      | GenOutcome.noKey => (Except.error (ServiceError.notFound "LiteLLM API key"), st)
      | GenOutcome.keyValue value =>
          if dbOk then
            (Except.ok
              { id := newKeyId, user_id := userId, name := name,
                key_hash := hash value, keyPfx := extractKeyPfx value,
                lite_llm_key_value := some value, is_active := true },
             { st with
                api_keys := st.api_keys ++
                  [{ id := newKeyId, user_id := userId, name := name,
                     key_hash := hash value, keyPfx := extractKeyPfx value,
                     lite_llm_key_value := some value, is_active := true }],
                api_key_models := st.api_key_models ++
                  modelIds.map fun mid =>
                    { api_key_id := newKeyId, model_id := mid : ApiKeyModelRow },
                audit_logs := st.audit_logs ++
                  [{ user_id := some userId, action := "API_KEY_CREATE",
                     resource_type := "API_KEY", resource_id := some newKeyId }] })
          else
            (Except.error ServiceError.dbFailure, st)

/-- The audit row written by a key rotation. -/
def rotateAuditRow (userId keyId : String) : AuditLogRow :=
  { user_id := some userId, action := "API_KEY_ROTATE", resource_type := "API_KEY",
    resource_id := some keyId }

/-- ApiKeyService.rotateApiKey, mock mode off.  `proxyRotate` models the
    delete-then-generate proxy round trip of the try block: `some newKey` is a
    successful proxy rotation, `none` any failure in it (caught; the service
    then falls back to a locally generated key, `localKey`).  In the fallback
    and no-integration branches the UPDATE sets only `key_hash` and the key
    prefix: the stored `lite_llm_key_value` keeps its previous value. -/
def rotateApiKey (hash : String → String) (proxyRotate : Option String) (localKey : String)
    (keyId userId : String) (st : DBState) :
    Except ServiceError (String × String) × DBState :=
  match st.api_keys.find? fun k => k.id == keyId && k.user_id == userId with
  | none => (Except.error (ServiceError.notFound "API key"), st)
  | some existingKey =>
      if existingKey.lite_llm_key_value.isSome then
        match proxyRotate with
        | some newKey =>
            (Except.ok (newKey, extractKeyPfx newKey),
             { st with
                api_keys := st.api_keys.map fun k =>
                  if k.id == keyId then
                    { k with
                        key_hash := hash newKey,
                        keyPfx := extractKeyPfx newKey,
                        lite_llm_key_value := some newKey }
                  else k,
                audit_logs := st.audit_logs ++ [rotateAuditRow userId keyId] })
        | none =>
            (Except.ok (localKey, extractKeyPfx localKey),
             { st with
                api_keys := st.api_keys.map fun k =>
                  if k.id == keyId then
                    { k with key_hash := hash localKey, keyPfx := extractKeyPfx localKey }
                  else k,
                audit_logs := st.audit_logs ++ [rotateAuditRow userId keyId] })
      else
        (Except.ok (localKey, extractKeyPfx localKey),
         { st with
            api_keys := st.api_keys.map fun k =>
              if k.id == keyId then
                { k with key_hash := hash localKey, keyPfx := extractKeyPfx localKey }
              else k,
            audit_logs := st.audit_logs ++ [rotateAuditRow userId keyId] })

/-- The read model returned by the key read operations (fields relevant to
    secret exposure). -/
structure EnhancedApiKeyView where
  id : String
  userId : String
  name : Option String
  keyPfx : String
  isActive : Bool
  models : List String
  liteLLMKey : Option String
  liteLLMKeyId : Option String
deriving Repr, DecidableEq

/-- Models associated to a key through the junction table joined with
    `models`. -/
def keyModels (st : DBState) (keyId : String) : List String :=
  (st.api_key_models.filter fun a =>
    a.api_key_id == keyId && st.models.any fun m => m.id == a.model_id).map
      fun a => a.model_id

/-- ApiKeyService.getApiKey (mock mode off): individual key retrieval.  The
    source deliberately returns the full stored LiteLLM key value in the
    `liteLLMKey` field for this operation. -/
def getApiKey (keyId userId : String) (st : DBState) : Option EnhancedApiKeyView :=
  match st.api_keys.find? fun k => k.id == keyId && k.user_id == userId with
  | none => none
  | some apiKey =>
      some { id := apiKey.id, userId := apiKey.user_id, name := apiKey.name,
             keyPfx := apiKey.keyPfx, isActive := apiKey.is_active,
             models := if apiKey.subscription_id.isNone then keyModels st keyId else [],
             liteLLMKey := apiKey.lite_llm_key_value,
             liteLLMKeyId := apiKey.lite_llm_key_value }

/-- The masking applied in list views: for keys longer than 12 characters the
    first 8 and last 4 characters around an ellipsis, else the first 4. -/
def maskKey (liteLLMKey : String) : String :=
  if 12 < liteLLMKey.length then
    liteLLMKey.take 8 ++ "..." ++ liteLLMKey.drop (liteLLMKey.length - 4)
  else liteLLMKey.take 4 ++ "..."

/-- Insertion into a list sorted by creation time descending. -/
def insertByCreatedAtDesc (k : ApiKeyRow) : List ApiKeyRow → List ApiKeyRow
  | [] => [k]
  | a :: t =>
      if a.created_at ≤ k.created_at then k :: a :: t
      else a :: insertByCreatedAtDesc k t

/-- The `ORDER BY created_at DESC` clause, as an insertion sort. -/
def sortByCreatedAtDesc : List ApiKeyRow → List ApiKeyRow
  | [] => []
  | a :: t => insertByCreatedAtDesc a (sortByCreatedAtDesc t)

/-- ApiKeyService.getUserApiKeys (mock mode off, no subscription/model filter):
    the user's keys, optionally filtered on `is_active`, ordered by creation
    time descending, paginated, each with the stored key value masked. -/
def getUserApiKeys (userId : String) (isActive : Option Bool) (page limit : Nat)
    (st : DBState) : List EnhancedApiKeyView :=
  let rows := st.api_keys.filter fun k =>
    k.user_id == userId &&
      (match isActive with | some b => k.is_active == b | none => true)
  let sorted := sortByCreatedAtDesc rows
  ((sorted.drop ((page - 1) * limit)).take limit).map fun k =>
    { id := k.id, userId := k.user_id, name := k.name, keyPfx := k.keyPfx,
      isActive := k.is_active,
      models := keyModels st k.id,
      liteLLMKey := k.lite_llm_key_value.map maskKey,
      liteLLMKeyId := k.lite_llm_key_value }

/-- The audit row written for each full-key retrieval. -/
def retrieveFullKeyAuditRow (userId keyId : String) : AuditLogRow :=
  { user_id := some userId, action := "API_KEY_RETRIEVE_FULL", resource_type := "API_KEY",
    resource_id := some keyId }

/-- ApiKeyService.retrieveFullKey (mock mode off): ownership check, then
    re-validation that the key is active and unexpired, then an audit record
    per retrieval, returning the stored plaintext value. -/
def retrieveFullKey (now : Int) (keyId userId : String) (st : DBState) :
    Except ServiceError String × DBState :=
  match st.api_keys.find? fun k => k.id == keyId && k.user_id == userId with
  | none => (Except.error (ServiceError.notFound "API key"), st)
  | some apiKey =>
      if !apiKey.is_active then
        (Except.error (ServiceError.validation "API key is inactive" "isActive" []), st)
      else if (match apiKey.expires_at with
               | some t => decide (t < now)
               | none => false) then
        (Except.error (ServiceError.validation "API key has expired" "expiresAt" []), st)
      else
        match apiKey.lite_llm_key_value with
        | none => (Except.error (ServiceError.notFound "LiteLLM key"), st)
        | some v =>
            (Except.ok v,
             { st with audit_logs := st.audit_logs ++ [retrieveFullKeyAuditRow userId keyId] })

/-! ## C5 -/

/-- The user has no subscription row with status `active` for this model id. -/
def lacksActiveSubscription (st : DBState) (userId id : String) : Bool :=
  !(st.subscriptions.any fun s =>
    s.user_id == userId && s.model_id == id && s.status == "active")

/-- Under the foreign key from subscriptions to models and a faithful
    round trip of the `join(',')` array literal, the validation query marks a
    requested id valid exactly when the user holds an active subscription. -/
lemma validModelIds_contains (st : DBState) (userId : String) (modelIds : List String)
    (hFK : ∀ s ∈ st.subscriptions, ∃ m ∈ st.models, m.id = s.model_id)
    (hParse : parseTextArrayLiteral (String.intercalate "," modelIds) = modelIds)
    (id : String) (hid : id ∈ modelIds) :
    (((st.subscriptions.filter fun s =>
        s.user_id == userId && s.status == "active" &&
          (parseTextArrayLiteral (String.intercalate "," modelIds)).contains s.model_id &&
          st.models.any fun m => m.id == s.model_id).map fun s => s.model_id).contains id)
      = (st.subscriptions.any fun s =>
          s.user_id == userId && s.model_id == id && s.status == "active") := by
  rw [hParse]
  rw [Bool.eq_iff_iff]
  constructor
  · intro hc
    have hmem : id ∈ (st.subscriptions.filter fun s =>
        s.user_id == userId && s.status == "active" && modelIds.contains s.model_id &&
          st.models.any fun m => m.id == s.model_id).map fun s => s.model_id := by
      simpa using hc
    obtain ⟨s, hs, hsid⟩ := List.mem_map.mp hmem
    obtain ⟨hsmem, hcond⟩ := List.mem_filter.mp hs
    simp only [Bool.and_eq_true, beq_iff_eq] at hcond
    rw [List.any_eq_true]
    exact ⟨s, hsmem, by simp [hcond.1.1.1, hsid, hcond.1.1.2]⟩
  · intro ha
    obtain ⟨s, hsmem, hcond⟩ := List.any_eq_true.mp ha
    simp only [Bool.and_eq_true, beq_iff_eq] at hcond
    obtain ⟨m, hm, hmid⟩ := hFK s hsmem
    have hs : s ∈ st.subscriptions.filter fun s =>
        s.user_id == userId && s.status == "active" && modelIds.contains s.model_id &&
          st.models.any fun m => m.id == s.model_id := by
      rw [List.mem_filter]
      refine ⟨hsmem, ?_⟩
      simp only [Bool.and_eq_true, beq_iff_eq]
      refine ⟨⟨⟨hcond.1.1, hcond.2⟩, ?_⟩, ?_⟩
      · rw [hcond.1.2]
        simpa using hid
      · rw [List.any_eq_true]
        exact ⟨m, hm, by simp [hmid]⟩
    have : id ∈ (st.subscriptions.filter fun s =>
        s.user_id == userId && s.status == "active" && modelIds.contains s.model_id &&
          st.models.any fun m => m.id == s.model_id).map fun s => s.model_id := by
      rw [List.mem_map]
      exact ⟨s, hs, hcond.1.2⟩
    simpa using this

/-- Counterexample to C5 as universally stated: the requested ids reach the
    validation query through the text-array literal built by `join(',')`, so
    a model id containing a comma is split apart; a request naming the
    actively subscribed model `a,b` together with the offending id `x` is
    rejected with a message listing `a,b` as offending as well — not exactly
    the offending ids. -/
theorem createApiKey_comma_id_counterexample :
    (createApiKey (fun s => "h:" ++ s) GenOutcome.noKey true "id1" "u1" ["a,b", "x"] none
      { models := [{ id := "a,b" }],
        subscriptions := [{ id := "s1", user_id := "u1", model_id := "a,b",
                            status := "active" }] }).1 =
      Except.error (ServiceError.validation
        "You do not have active subscriptions for the following models: a,b, x"
        "modelIds" ["a,b", "x"]) ∧
    lacksActiveSubscription
      { models := [{ id := "a,b" }],
        subscriptions := [{ id := "s1", user_id := "u1", model_id := "a,b",
                            status := "active" }] } "u1" "a,b" = false := by
  exact ⟨rfl, rfl⟩

/-- C5 (amended): provided no requested model id contains a comma (so the
    `join(',')` array literal round-trips) and subscriptions respect the
    foreign key into `models`, a `createApiKey` request naming at least one
    model id without an active subscription for the user fails with a
    Validation error whose message and payload list exactly the offending
    model ids, and leaves the database state (in particular `api_keys` and
    `api_key_models`) unchanged. -/
theorem createApiKey_invalid_subscription_validation
    (hash : String → String) (genOutcome : GenOutcome) (dbOk : Bool)
    (newKeyId userId : String) (modelIds : List String) (name : Option String) (st : DBState)
    (hFK : ∀ s ∈ st.subscriptions, ∃ m ∈ st.models, m.id = s.model_id)
    (hParse : parseTextArrayLiteral (String.intercalate "," modelIds) = modelIds)
    (hbad : ∃ id ∈ modelIds, lacksActiveSubscription st userId id = true) :
    (createApiKey hash genOutcome dbOk newKeyId userId modelIds name st).1 =
      Except.error (ServiceError.validation
        ("You do not have active subscriptions for the following models: " ++
          String.intercalate ", " (modelIds.filter (lacksActiveSubscription st userId)))
        "modelIds" (modelIds.filter (lacksActiveSubscription st userId))) ∧
    (createApiKey hash genOutcome dbOk newKeyId userId modelIds name st).2 = st := by
  obtain ⟨id0, hid0, hlacks0⟩ := hbad
  have hnonempty : modelIds.isEmpty = false := by
    cases modelIds with
    | nil => cases hid0
    | cons a t => rfl
  have hfiltereq : (modelIds.filter fun id =>
      !(((st.subscriptions.filter fun s =>
        s.user_id == userId && s.status == "active" &&
          (parseTextArrayLiteral (String.intercalate "," modelIds)).contains s.model_id &&
          st.models.any fun m => m.id == s.model_id).map fun s => s.model_id).contains id)) =
      modelIds.filter (lacksActiveSubscription st userId) := by
    apply List.filter_congr
    intro id hid
    rw [validModelIds_contains st userId modelIds hFK hParse id hid]
    rfl
  have hmem0 : id0 ∈ modelIds.filter (lacksActiveSubscription st userId) :=
    List.mem_filter.mpr ⟨hid0, hlacks0⟩
  have hinv : (modelIds.filter (lacksActiveSubscription st userId)).isEmpty = false := by
    cases hl : modelIds.filter (lacksActiveSubscription st userId) with
    | nil => rw [hl] at hmem0; cases hmem0
    | cons a t => rfl
  simp only [createApiKey, hnonempty, Bool.false_eq_true, if_false]
  rw [hfiltereq, hinv]
  simp

/-- Witness for C5: a concrete request for `m1, m2` with only `m1` actively
    subscribed leaves the state unchanged. -/
theorem createApiKey_invalid_subscription_validation_witness :
    (createApiKey (fun s => "h:" ++ s) GenOutcome.noKey true "id1" "u1" ["m1", "m2"] none
      { models := [{ id := "m1" }],
        subscriptions := [{ id := "s1", user_id := "u1", model_id := "m1",
                            status := "active" }] }).2 =
      { models := [{ id := "m1" }],
        subscriptions := [{ id := "s1", user_id := "u1", model_id := "m1",
                            status := "active" }] } := by
  have h := createApiKey_invalid_subscription_validation (fun s => "h:" ++ s) GenOutcome.noKey
    true "id1" "u1" ["m1", "m2"] none
    { models := [{ id := "m1" }],
      subscriptions := [{ id := "s1", user_id := "u1", model_id := "m1",
                          status := "active" }] }
    (by decide) (by decide) (by decide)
  exact h.2

/-! ## C4 -/

/-- A concrete stand-in for the sha256 hex digest in closed runs. -/
def c4Hash (s : String) : String := "h:" ++ s

/-- A key row holding a proxy-issued secret whose stored hash matches it. -/
def c4Key : ApiKeyRow :=
  { id := "k1", user_id := "u1", key_hash := "h:sk-oldkey",
    keyPfx := "sk-oldk", lite_llm_key_value := some "sk-oldkey" }

/-- A database with that single key. -/
def c4State : DBState := { api_keys := [c4Key] }

/-- Counterexample to C4: after a rotation whose proxy round trip fails, the
    fallback writes the local key's hash while `lite_llm_key_value` keeps the
    old proxy secret, so the stored hash no longer matches the stored
    external key value. -/
theorem rotateApiKey_fallback_breaks_hash_invariant :
    ((rotateApiKey c4Hash none "sk-localkey" "k1" "u1" c4State).2.api_keys.all fun k =>
        match k.lite_llm_key_value with
        | some v => k.key_hash == c4Hash v
        | none => true) = false := by
  decide

/-- C4 (amended): the stored hash equals the hash of the stored external key
    value immediately after a successful `createApiKey`, and after a
    `rotateApiKey` whose proxy-side rotation succeeded; the fallback branch of
    rotation (proxy failure) is excluded. -/
theorem keyHash_matches_externalKeyValue_after_create_and_proxy_rotation
    (hash : String → String) (genOutcome : GenOutcome) (dbOk : Bool)
    (newKeyId userId : String) (modelIds : List String) (name : Option String) (st : DBState)
    (proxyKey localKey keyId userId2 : String) (st2 : DBState) (k0 : ApiKeyRow)
    (hfind : (st2.api_keys.find? fun k => k.id == keyId && k.user_id == userId2) = some k0)
    (hext : k0.lite_llm_key_value.isSome = true) :
    (∀ row, (createApiKey hash genOutcome dbOk newKeyId userId modelIds name st).1 =
        Except.ok row → ∃ v, row.lite_llm_key_value = some v ∧ row.key_hash = hash v) ∧
    (∀ k ∈ (rotateApiKey hash (some proxyKey) localKey keyId userId2 st2).2.api_keys,
        k.id = keyId → k.key_hash = hash proxyKey ∧
          k.lite_llm_key_value = some proxyKey) := by
  constructor
  · intro row h
    unfold createApiKey at h
    simp only [] at h
    repeat' split at h
    all_goals first
      | (obtain rfl := (Except.ok.inj h).symm; exact ⟨_, rfl, rfl⟩)
      | exact absurd h (by simp)
  · intro k hk hid
    simp only [rotateApiKey, hfind, hext, if_true] at hk
    obtain ⟨k1, hk1, rfl⟩ := List.mem_map.mp hk
    cases hc : k1.id == keyId
    · rw [hc] at hid
      simp only [Bool.false_eq_true, if_false] at hid
      exact absurd (by simp [hid] : (k1.id == keyId) = true) (by simp [hc])
    · simp [hc]

/-- Witness for the amended C4: after a concrete successful proxy rotation
    every row of the rotated key satisfies the hash invariant. -/
theorem keyHash_matches_externalKeyValue_witness :
    ((rotateApiKey c4Hash (some "sk-newkey") "sk-local" "k1" "u1" c4State).2.api_keys.all
      fun k => !(k.id == "k1") || (k.key_hash == c4Hash "sk-newkey" &&
        k.lite_llm_key_value == some "sk-newkey")) = true := by
  have h := (keyHash_matches_externalKeyValue_after_create_and_proxy_rotation
    c4Hash GenOutcome.throws true "id1" "u1" ["m1"] none {} "sk-newkey" "sk-local"
    "k1" "u1" c4State c4Key rfl rfl).2
  rw [List.all_eq_true]
  intro k hk
  cases hid : k.id == "k1"
  · simp
  · have h2 := h k hk (by simpa using hid)
    simp [h2.1, h2.2]

/-! ## C8 -/

/-- A key whose stored proxy secret is long enough for the long-key mask. -/
def c8Key : ApiKeyRow :=
  { id := "k1", user_id := "u1", key_hash := "h1", keyPfx := "sk-1234",
    lite_llm_key_value := some "sk-1234567890abcdef" }

/-- A database with that single key. -/
def c8State : DBState := { api_keys := [c8Key] }

/-- Counterexample to C8: the single-key read operation `getApiKey` returns
    the full stored secret, not the masked prefix/suffix view. -/
theorem getApiKey_returns_full_key_counterexample :
    ((getApiKey "k1" "u1" c8State).map fun v => v.liteLLMKey) =
        some (some "sk-1234567890abcdef") ∧
      maskKey "sk-1234567890abcdef" ≠ "sk-1234567890abcdef" := by
  exact ⟨rfl, by decide⟩

/-- C8 (amended): the list operation `getUserApiKeys` exposes only masked key
    values; `getApiKey` (single-key retrieval) returns the full stored value;
    and `retrieveFullKey` succeeds only for an owned, active, unexpired key
    with a stored value, returning that value and appending one audit record
    for the retrieval. -/
theorem plaintext_exposure_surface
    (userId keyId : String) (isActive : Option Bool) (page limit : Nat) (now : Int)
    (st : DBState) :
    (∀ view ∈ getUserApiKeys userId isActive page limit st, ∀ s,
        view.liteLLMKey = some s → ∃ full, s = maskKey full) ∧
    (∀ view, getApiKey keyId userId st = some view →
        ∃ k ∈ st.api_keys, k.id = keyId ∧ k.user_id = userId ∧
          view.liteLLMKey = k.lite_llm_key_value) ∧
    (∀ v, (retrieveFullKey now keyId userId st).1 = Except.ok v →
        ∃ k ∈ st.api_keys, k.id = keyId ∧ k.user_id = userId ∧ k.is_active = true ∧
          (∀ t, k.expires_at = some t → ¬ t < now) ∧ k.lite_llm_key_value = some v ∧
          (retrieveFullKey now keyId userId st).2.audit_logs =
            st.audit_logs ++ [retrieveFullKeyAuditRow userId keyId]) := by
  refine ⟨?_, ?_, ?_⟩
  · intro view hview s hs
    unfold getUserApiKeys at hview
    simp only [] at hview
    obtain ⟨k, hk, rfl⟩ := List.mem_map.mp hview
    simp only [] at hs
    obtain ⟨full, hfull, hmask⟩ := Option.map_eq_some'.mp hs
    exact ⟨full, hmask.symm⟩
  · intro view hview
    unfold getApiKey at hview
    cases hf : st.api_keys.find? fun k => k.id == keyId && k.user_id == userId with
    | none => rw [hf] at hview; cases hview
    | some k =>
        rw [hf] at hview
        have hmem : k ∈ st.api_keys := List.mem_of_find?_eq_some hf
        have hcond := List.find?_some hf
        simp only [Bool.and_eq_true, beq_iff_eq] at hcond
        refine ⟨k, hmem, hcond.1, hcond.2, ?_⟩
        cases hview
        rfl
  · intro v hv
    unfold retrieveFullKey at hv ⊢
    cases hf : st.api_keys.find? fun k => k.id == keyId && k.user_id == userId with
    | none => simp [hf] at hv
    | some k =>
        have hmem : k ∈ st.api_keys := List.mem_of_find?_eq_some hf
        have hcond := List.find?_some hf
        simp only [Bool.and_eq_true, beq_iff_eq] at hcond
        simp only [hf] at hv ⊢
        cases hact : k.is_active with
        | false => simp [hact] at hv
        | true =>
            simp only [hact, Bool.not_true, Bool.false_eq_true, if_false] at hv ⊢
            cases hexp : (match k.expires_at with
                          | some t => decide (t < now)
                          | none => false) with
            | true => simp [hexp] at hv
            | false =>
                simp only [hexp, Bool.false_eq_true, if_false] at hv ⊢
                cases hval : k.lite_llm_key_value with
                | none => simp [hval] at hv
                | some v0 =>
                    simp only [hval] at hv ⊢
                    cases hv
                    refine ⟨k, hmem, hcond.1, hcond.2, hact, ?_, hval, trivial⟩
                    intro t ht hlt
                    rw [ht] at hexp
                    simp [hlt] at hexp

/-- Witness for the amended C8: on a concrete state the list view masks the
    stored secret to `sk-12345...cdef`. -/
theorem plaintext_exposure_surface_witness :
    ∃ full, "sk-12345...cdef" = maskKey full := by
  have h := (plaintext_exposure_surface "u1" "k1" none 1 20 0 c8State).1
  exact h { id := "k1", userId := "u1", name := none, keyPfx := "sk-1234", isActive := true,
            models := [], liteLLMKey := some "sk-12345...cdef",
            liteLLMKeyId := some "sk-1234567890abcdef" }
    (by decide) "sk-12345...cdef" rfl

/-! ## ApiKeyService.removeModelFromUserApiKeys -/

/-- A combined snapshot of the local database and the proxy's per-key allowed
    model lists (indexed by the key's stored proxy value), used to express the
    ordering guarantee of the proxy-first removal path. -/
structure SyncPoint where
  db : DBState
  proxyModels : String → List String

/-- The keys selected by the removal path: the user's active API keys that
    currently reference the model through the junction table. -/
def affectedKeys (userId modelId : String) (st : DBState) : List ApiKeyRow :=
  st.api_keys.filter fun k =>
    k.user_id == userId && k.is_active &&
      st.api_key_models.any fun a => a.api_key_id == k.id && a.model_id == modelId

/-- The models that remain on a key once the removed model is excluded
    (queried per key before any local write). -/
def remainingModels (st : DBState) (keyId modelId : String) : List String :=
  (st.api_key_models.filter fun a =>
    a.api_key_id == keyId && a.model_id != modelId).map fun a => a.model_id

/-- STEP 1 of `removeModelFromUserApiKeys` (mock mode off): update the proxy
    record of every affected key first, collecting per-key outcomes
    (`liteLLMUpdates`), the final proxy state, and the combined snapshot after
    each proxy call.  `proxyOk` is the per-key proxy-call outcome oracle;
    keys without a stored proxy value are marked successful without a call. -/
def proxyUpdatePhase (proxyOk : String → Bool) (modelId : String) (st : DBState) :
    List ApiKeyRow → (String → List String) →
      List (String × Bool) × (String → List String) × List SyncPoint
  | [], p => ([], p, [])
  | k :: rest, p =>
      match k.lite_llm_key_value with
      | some v =>
          if proxyOk k.id then
            ((k.id, true) :: (proxyUpdatePhase proxyOk modelId st rest
                (fun kv => if kv = v then remainingModels st k.id modelId else p kv)).1,
             (proxyUpdatePhase proxyOk modelId st rest
                (fun kv => if kv = v then remainingModels st k.id modelId else p kv)).2.1,
             { db := st, proxyModels :=
                 fun kv => if kv = v then remainingModels st k.id modelId else p kv } ::
               (proxyUpdatePhase proxyOk modelId st rest
                 (fun kv => if kv = v then remainingModels st k.id modelId else p kv)).2.2)
          else
            ((k.id, false) :: (proxyUpdatePhase proxyOk modelId st rest p).1,
             (proxyUpdatePhase proxyOk modelId st rest p).2.1,
             { db := st, proxyModels := p } ::
               (proxyUpdatePhase proxyOk modelId st rest p).2.2)
      | none =>
          ((k.id, true) :: (proxyUpdatePhase proxyOk modelId st rest p).1,
           (proxyUpdatePhase proxyOk modelId st rest p).2.1,
           (proxyUpdatePhase proxyOk modelId st rest p).2.2)

/-- The key ids whose proxy update succeeded (STEP 2's deletion scope). -/
def successfulKeyIds (proxyOk : String → Bool) (userId modelId : String) (st : DBState)
    (proxy : String → List String) : List String :=
  ((proxyUpdatePhase proxyOk modelId st (affectedKeys userId modelId st) proxy).1.filter
    fun u => u.2).map fun u => u.1

/-- ApiKeyService.removeModelFromUserApiKeys (mock mode off): proxy updates
    first, then one local DELETE restricted to the keys whose proxy update
    succeeded.  Returns the final database, the final proxy state, and the
    list of combined snapshots traversed (initial, after each proxy call,
    final). -/
def removeModelFromUserApiKeys (proxyOk : String → Bool) (userId modelId : String)
    (st : DBState) (proxy : String → List String) :
    DBState × (String → List String) × List SyncPoint :=
  if (affectedKeys userId modelId st).isEmpty then
    (st, proxy, [{ db := st, proxyModels := proxy }])
  else
    let phase := proxyUpdatePhase proxyOk modelId st (affectedKeys userId modelId st) proxy
    let successful := successfulKeyIds proxyOk userId modelId st proxy
    let st2 :=
      if successful.isEmpty then st
      else { st with api_key_models := st.api_key_models.filter fun a =>
              !(successful.contains a.api_key_id && a.model_id == modelId) }
    (st2, phase.2.1,
     { db := st, proxyModels := proxy } :: phase.2.2 ++
       [{ db := st2, proxyModels := phase.2.1 }])

/-! ## Lemmas about the removal phase -/

lemma remainingModels_not_model (st : DBState) (keyId modelId : String) :
    modelId ∉ remainingModels st keyId modelId := by
  intro hmem
  obtain ⟨a, ha, haid⟩ := List.mem_map.mp hmem
  have := (List.mem_filter.mp ha).2
  simp only [Bool.and_eq_true, bne_iff_ne, ne_eq] at this
  exact this.2 haid

/-- The recorded update outcomes, key by key. -/
lemma proxyUpdatePhase_updates (proxyOk : String → Bool) (modelId : String) (st : DBState) :
    ∀ (ks : List ApiKeyRow) (p : String → List String),
    (proxyUpdatePhase proxyOk modelId st ks p).1 = ks.map fun k =>
      (k.id, match k.lite_llm_key_value with
             | some _ => proxyOk k.id
             | none => true) := by
  intro ks
  induction ks with
  | nil => intro p; rfl
  | cons k rest ih =>
      intro p
      cases hval : k.lite_llm_key_value with
      | none => simp [proxyUpdatePhase, hval, ih]
      | some v =>
          cases hok : proxyOk k.id with
          | false => simp [proxyUpdatePhase, hval, hok, ih]
          | true => simp [proxyUpdatePhase, hval, hok, ih]

/-- Once a proxy value's model list excludes the removed model, it stays
    excluded through the rest of the phase (all writes exclude it). -/
lemma proxyUpdatePhase_preserves (proxyOk : String → Bool) (modelId : String) (st : DBState) :
    ∀ (ks : List ApiKeyRow) (p : String → List String) (v : String),
    modelId ∉ p v → modelId ∉ (proxyUpdatePhase proxyOk modelId st ks p).2.1 v := by
  intro ks
  induction ks with
  | nil => intro p v h; exact h
  | cons k rest ih =>
      intro p v h
      cases hval : k.lite_llm_key_value with
      | none => simpa [proxyUpdatePhase, hval] using ih p v h
      | some v0 =>
          cases hok : proxyOk k.id with
          | false => simpa [proxyUpdatePhase, hval, hok] using ih p v h
          | true =>
              simp only [proxyUpdatePhase, hval, hok, if_true]
              apply ih
              by_cases hv : v = v0
              · simp only [hv, if_pos rfl]
                exact remainingModels_not_model st k.id modelId
              · simpa [hv] using h

/-- After a successful proxy update for a key, the final proxy state of the
    phase no longer allows the removed model under that key's value. -/
lemma proxyUpdatePhase_success (proxyOk : String → Bool) (modelId : String) (st : DBState) :
    ∀ (ks : List ApiKeyRow) (p : String → List String) (k : ApiKeyRow) (v : String),
    k ∈ ks → k.lite_llm_key_value = some v → proxyOk k.id = true →
    modelId ∉ (proxyUpdatePhase proxyOk modelId st ks p).2.1 v := by
  intro ks
  induction ks with
  | nil => intro p k v hk; cases hk
  | cons k0 rest ih =>
      intro p k v hk hval hok
      rcases List.mem_cons.mp hk with rfl | hk2
      · simp only [proxyUpdatePhase, hval, hok, if_true]
        apply proxyUpdatePhase_preserves
        simp only [if_pos rfl]
        exact remainingModels_not_model st k.id modelId
      · cases hval0 : k0.lite_llm_key_value with
        | none => simpa [proxyUpdatePhase, hval0] using ih p k v hk2 hval hok
        | some v0 =>
            cases hok0 : proxyOk k0.id with
            | false => simpa [proxyUpdatePhase, hval0, hok0] using ih p k v hk2 hval hok
            | true =>
                simp only [proxyUpdatePhase, hval0, hok0, if_true]
                exact ih _ k v hk2 hval hok

/-- Every intermediate snapshot of the phase carries the untouched database. -/
lemma proxyUpdatePhase_points_db (proxyOk : String → Bool) (modelId : String) (st : DBState) :
    ∀ (ks : List ApiKeyRow) (p : String → List String),
    ∀ c ∈ (proxyUpdatePhase proxyOk modelId st ks p).2.2, c.db = st := by
  intro ks
  induction ks with
  | nil => intro p c hc; cases hc
  | cons k rest ih =>
      intro p c hc
      cases hval : k.lite_llm_key_value with
      | none =>
          rw [proxyUpdatePhase] at hc
          simp only [hval] at hc
          exact ih p c hc
      | some v =>
          cases hok : proxyOk k.id with
          | false =>
              rw [proxyUpdatePhase] at hc
              simp only [hval, hok, Bool.false_eq_true, if_false] at hc
              rcases List.mem_cons.mp hc with rfl | hc2
              · rfl
              · exact ih p c hc2
          | true =>
              rw [proxyUpdatePhase] at hc
              simp only [hval, hok, if_true] at hc
              rcases List.mem_cons.mp hc with rfl | hc2
              · rfl
              · exact ih _ c hc2

/-- Membership in the deletion scope, characterized per affected key. -/
lemma successfulKeyIds_mem (proxyOk : String → Bool) (userId modelId : String) (st : DBState)
    (proxy : String → List String) (x : String) :
    x ∈ successfulKeyIds proxyOk userId modelId st proxy ↔
      ∃ k ∈ affectedKeys userId modelId st, k.id = x ∧
        (match k.lite_llm_key_value with
         | some _ => proxyOk k.id
         | none => true) = true := by
  unfold successfulKeyIds
  rw [proxyUpdatePhase_updates]
  constructor
  · intro hx
    obtain ⟨u, hu, hux⟩ := List.mem_map.mp hx
    obtain ⟨hu1, hu2⟩ := List.mem_filter.mp hu
    obtain ⟨k, hk, hku⟩ := List.mem_map.mp hu1
    refine ⟨k, hk, ?_, ?_⟩
    · rw [← hux, ← hku]
    · rw [← hku] at hu2
      simpa using hu2
  · intro hx
    obtain ⟨k, hk, hkx, hsucc⟩ := hx
    rw [List.mem_map]
    refine ⟨(k.id, match k.lite_llm_key_value with
                   | some _ => proxyOk k.id
                   | none => true), ?_, hkx⟩
    rw [List.mem_filter]
    exact ⟨List.mem_map_of_mem _ hk, by simpa using hsucc⟩

/-- The committed run of the removal path when at least one key is affected. -/
lemma removeModel_run (proxyOk : String → Bool) (userId modelId : String) (st : DBState)
    (proxy : String → List String)
    (hne : (affectedKeys userId modelId st).isEmpty = false) :
    removeModelFromUserApiKeys proxyOk userId modelId st proxy =
      ((if (successfulKeyIds proxyOk userId modelId st proxy).isEmpty then st
        else { st with api_key_models := st.api_key_models.filter fun a =>
                !((successfulKeyIds proxyOk userId modelId st proxy).contains a.api_key_id &&
                  a.model_id == modelId) }),
       (proxyUpdatePhase proxyOk modelId st (affectedKeys userId modelId st) proxy).2.1,
       { db := st, proxyModels := proxy } ::
         (proxyUpdatePhase proxyOk modelId st (affectedKeys userId modelId st) proxy).2.2 ++
         [{ db := if (successfulKeyIds proxyOk userId modelId st proxy).isEmpty then st
                  else { st with api_key_models := st.api_key_models.filter fun a =>
                         !((successfulKeyIds proxyOk userId modelId st proxy).contains
                             a.api_key_id && a.model_id == modelId) },
            proxyModels :=
              (proxyUpdatePhase proxyOk modelId st (affectedKeys userId modelId st) proxy).2.1 }])
      := by
  simp only [removeModelFromUserApiKeys, hne, Bool.false_eq_true, if_false]

lemma filter_false_of_not_mem_filter {α : Type} {p : α → Bool} {l : List α} {a : α}
    (ha : a ∈ l) (hnot : a ∉ l.filter p) : p a = false := by
  cases hp : p a
  · rfl
  · exact absurd (List.mem_filter.mpr ⟨ha, hp⟩) hnot

/-! ## C6 -/

/-- C6: in `removeModelFromUserApiKeys`, (1) a key whose proxy update failed
    keeps its local join row for the model, (2) a join row is deleted only
    for affected keys whose proxy update succeeded (or that carry no proxy
    key), and (3) at every combined snapshot the run traverses, a key with a
    stored proxy value never has its local association gone while the proxy
    still allows the model — the proxy record is updated first. -/
theorem removeModel_proxy_first_ordering
    (proxyOk : String → Bool) (userId modelId : String) (st : DBState)
    (proxy : String → List String)
    (hkeys : (st.api_keys.map fun k => k.id).Nodup) :
    (∀ k ∈ affectedKeys userId modelId st, ∀ v, k.lite_llm_key_value = some v →
        proxyOk k.id = false →
        ∃ a ∈ (removeModelFromUserApiKeys proxyOk userId modelId st proxy).1.api_key_models,
          a.api_key_id = k.id ∧ a.model_id = modelId) ∧
    (∀ a ∈ st.api_key_models,
        a ∉ (removeModelFromUserApiKeys proxyOk userId modelId st proxy).1.api_key_models →
        a.model_id = modelId ∧ ∃ k ∈ affectedKeys userId modelId st, k.id = a.api_key_id ∧
          (k.lite_llm_key_value = none ∨ proxyOk k.id = true)) ∧
    (∀ c ∈ (removeModelFromUserApiKeys proxyOk userId modelId st proxy).2.2,
        ∀ k ∈ affectedKeys userId modelId st, ∀ v, k.lite_llm_key_value = some v →
          (∀ a ∈ c.db.api_key_models, ¬(a.api_key_id = k.id ∧ a.model_id = modelId)) →
          modelId ∉ c.proxyModels v) := by
  have haffNodup : ((affectedKeys userId modelId st).map fun k => k.id).Nodup :=
    List.Nodup.sublist (List.Sublist.map _ (List.filter_sublist _)) hkeys
  have hinj : ∀ k1 ∈ affectedKeys userId modelId st, ∀ k2 ∈ affectedKeys userId modelId st,
      k1.id = k2.id → k1 = k2 := fun _ h1 _ h2 he =>
    List.inj_on_of_nodup_map haffNodup h1 h2 he
  have hrow : ∀ k ∈ affectedKeys userId modelId st,
      ∃ a ∈ st.api_key_models, a.api_key_id = k.id ∧ a.model_id = modelId := by
    intro k hk
    have := (List.mem_filter.mp hk).2
    simp only [Bool.and_eq_true] at this
    obtain ⟨a, ha, hpa⟩ := List.any_eq_true.mp this.2
    simp only [Bool.and_eq_true, beq_iff_eq] at hpa
    exact ⟨a, ha, hpa.1, hpa.2⟩
  have hsucc_of_mem : ∀ k ∈ affectedKeys userId modelId st, ∀ v,
      k.lite_llm_key_value = some v → proxyOk k.id = false →
      k.id ∉ successfulKeyIds proxyOk userId modelId st proxy := by
    intro k hk v hv hfail hmem
    obtain ⟨k2, hk2, hk2id, hk2succ⟩ :=
      (successfulKeyIds_mem proxyOk userId modelId st proxy k.id).mp hmem
    have := hinj k2 hk2 k hk hk2id
    rw [this, hv] at hk2succ
    simp only at hk2succ
    rw [hfail] at hk2succ
    cases hk2succ
  refine ⟨?_, ?_, ?_⟩
  · intro k hk v hv hfail
    have hne : (affectedKeys userId modelId st).isEmpty = false := by
      cases haff : affectedKeys userId modelId st with
      | nil => rw [haff] at hk; cases hk
      | cons x t => rfl
    rw [removeModel_run proxyOk userId modelId st proxy hne]
    obtain ⟨a, ha, haid, hamid⟩ := hrow k hk
    cases hsfE : (successfulKeyIds proxyOk userId modelId st proxy).isEmpty
    · simp only [hsfE, Bool.false_eq_true, if_false]
      refine ⟨a, List.mem_filter.mpr ⟨ha, ?_⟩, haid, hamid⟩
      have hc : ((successfulKeyIds proxyOk userId modelId st proxy).contains a.api_key_id)
          = false := by
        cases hcc : (successfulKeyIds proxyOk userId modelId st proxy).contains a.api_key_id
        · rfl
        · exfalso
          apply hsucc_of_mem k hk v hv hfail
          rw [← haid]
          simpa using hcc
      rw [hc]
      rfl
    · simp only [hsfE, if_true]
      exact ⟨a, ha, haid, hamid⟩
  · intro a ha hnot
    have hne : (affectedKeys userId modelId st).isEmpty = false := by
      cases haff : affectedKeys userId modelId st with
      | nil =>
          exfalso
          apply hnot
          simp only [removeModelFromUserApiKeys, haff, List.isEmpty_nil, if_true]
          exact ha
      | cons x t => rfl
    rw [removeModel_run proxyOk userId modelId st proxy hne] at hnot
    cases hsfE : (successfulKeyIds proxyOk userId modelId st proxy).isEmpty
    · rw [hsfE] at hnot
      simp only [Bool.false_eq_true, if_false] at hnot
      have hpa := filter_false_of_not_mem_filter ha hnot
      simp only [Bool.not_eq_false'] at hpa
      simp only [Bool.and_eq_true, beq_iff_eq] at hpa
      obtain ⟨k, hk, hkid, hksucc⟩ :=
        (successfulKeyIds_mem proxyOk userId modelId st proxy a.api_key_id).mp
          (by simpa using hpa.1)
      refine ⟨hpa.2, k, hk, hkid, ?_⟩
      cases hval : k.lite_llm_key_value with
      | none => exact Or.inl rfl
      | some v =>
          rw [hval] at hksucc
          simp only at hksucc
          exact Or.inr hksucc
    · rw [hsfE] at hnot
      simp only [if_true] at hnot
      exact absurd ha hnot
  · intro c hc k hk v hv hgone
    have hne : (affectedKeys userId modelId st).isEmpty = false := by
      cases haff : affectedKeys userId modelId st with
      | nil => rw [haff] at hk; cases hk
      | cons x t => rfl
    rw [removeModel_run proxyOk userId modelId st proxy hne] at hc
    obtain ⟨a, ha, haid, hamid⟩ := hrow k hk
    rcases List.mem_cons.mp hc with rfl | hc1
    · exact absurd ⟨haid, hamid⟩ (hgone a ha)
    rcases List.mem_append.mp hc1 with hc2 | hc3
    · have hdb := proxyUpdatePhase_points_db proxyOk modelId st
        (affectedKeys userId modelId st) proxy c hc2
      rw [hdb] at hgone
      exact absurd ⟨haid, hamid⟩ (hgone a ha)
    obtain rfl := List.mem_singleton.mp hc3
    · cases hsfE : (successfulKeyIds proxyOk userId modelId st proxy).isEmpty
      · rw [hsfE] at hgone
        simp only [Bool.false_eq_true, if_false] at hgone ⊢
        have hcontains : ((successfulKeyIds proxyOk userId modelId st proxy).contains
            a.api_key_id) = true := by
          cases hcc : (successfulKeyIds proxyOk userId modelId st proxy).contains a.api_key_id
          · exfalso
            apply hgone a (List.mem_filter.mpr ⟨ha, by rw [hcc]; rfl⟩)
            exact ⟨haid, hamid⟩
          · rfl
        have hmemS : k.id ∈ successfulKeyIds proxyOk userId modelId st proxy := by
          rw [← haid]
          simpa using hcontains
        obtain ⟨k2, hk2, hk2id, hk2succ⟩ :=
          (successfulKeyIds_mem proxyOk userId modelId st proxy k.id).mp hmemS
        have hkk := hinj k2 hk2 k hk hk2id
        rw [hkk, hv] at hk2succ
        simp only at hk2succ
        exact proxyUpdatePhase_success proxyOk modelId st
          (affectedKeys userId modelId st) proxy k v hk hv hk2succ
      · rw [hsfE] at hgone
        simp only [if_true] at hgone
        exact absurd ⟨haid, hamid⟩ (hgone a ha)

/-- Per-key proxy outcome for the C6 witness: only key `k1` succeeds. -/
def c6ProxyOk (id : String) : Bool := id == "k1"

/-- Two affected keys of one user, both referencing model `m1`. -/
def c6State : DBState :=
  { api_keys := [{ id := "k1", user_id := "u1", lite_llm_key_value := some "sk-k1" },
                 { id := "k2", user_id := "u1", lite_llm_key_value := some "sk-k2" }],
    api_key_models := [{ api_key_id := "k1", model_id := "m1" },
                       { api_key_id := "k2", model_id := "m1" }] }

/-- Witness for C6: with the proxy update failing for `k2`, its local join
    row for `m1` survives the removal run. -/
theorem removeModel_proxy_first_ordering_witness :
    ((removeModelFromUserApiKeys c6ProxyOk "u1" "m1" c6State
        (fun kv => ["m1"])).1.api_key_models.any
      fun a => a.api_key_id == "k2" && a.model_id == "m1") = true := by
  have h := (removeModel_proxy_first_ordering c6ProxyOk "u1" "m1" c6State
    (fun kv => ["m1"]) (by decide)).1
  obtain ⟨a, ha, h1, h2⟩ := h
    { id := "k2", user_id := "u1", lite_llm_key_value := some "sk-k2" }
    (by decide) "sk-k2" rfl rfl
  rw [List.any_eq_true]
  exact ⟨a, ha, by simp [h1, h2]⟩

/-! ## LiteLLMService.makeRequest -/

/-- Retry/backoff/timeout settings of the proxy client (defaults as in the
    service constructor: 3 attempts, 1s delay, 30s timeout). -/
structure LiteLLMClientConfig where
  retryAttempts : Nat := 3
  retryDelay : Nat := 1000
  timeout : Nat := 30000
deriving Repr, DecidableEq

/-- Outcome of a single fetch attempt as observed by `makeRequest`: a thrown
    network/abort error, a non-2xx response (with the parsed error body and
    whether it matches the `no models configured` shape), or a 2xx payload. -/
inductive AttemptOutcome
  | netError (msg : String)
  | httpError (status : Nat) (message : String) (noModelsConfigured : Bool)
  | ok
deriving Repr, DecidableEq

/-- Errors surfaced by `makeRequest`. -/
inductive RequestError
  | circuitOpen
  | network (msg : String)
  | validation (message : String) (status : Nat)
deriving Repr, DecidableEq

/-- Response data as far as the claims need it. -/
inductive ResponseData
  | payload
  | emptyModelList
deriving Repr, DecidableEq

/-- Circuit breaker state of the client singleton. -/
structure BreakerState where
  isOpen : Bool := false
  failureCount : Nat := 0
  lastFailureTime : Int := 0
deriving Repr, DecidableEq

/-- isCircuitBreakerTripped: an open breaker whose 30s timeout has expired is
    closed (and its counter reset) before the decision. -/
def isCircuitBreakerTripped (br : BreakerState) (now : Int) (timeout : Int) :
    Bool × BreakerState :=
  if !br.isOpen then (false, br)
  else if timeout < now - br.lastFailureTime then
    (false, { br with isOpen := false, failureCount := 0 })
  else (true, br)

/-- recordSuccess: reset the failure counter and close the breaker. -/
def recordSuccess (br : BreakerState) : BreakerState :=
  { br with failureCount := 0, isOpen := false }

/-- recordFailure: bump the counter, remember the time, open at the
    threshold (5). -/
def recordFailure (now : Int) (threshold : Nat) (br : BreakerState) : BreakerState :=
  { isOpen := br.isOpen || decide (threshold ≤ br.failureCount + 1),
    failureCount := br.failureCount + 1,
    lastFailureTime := now }

/-- The error `makeRequest` constructs for one failing attempt: a network
    error is re-thrown as caught; a non-2xx response becomes the validation
    error carrying the proxy status and message (`LiteLLM API error: ...`). -/
def attemptErrorOf (o : AttemptOutcome) : RequestError :=
  match o with
  | AttemptOutcome.netError m => RequestError.network m
  | AttemptOutcome.httpError status msg _ =>
      RequestError.validation ("LiteLLM API error: " ++ toString status ++ " - " ++ msg)
        status
  | AttemptOutcome.ok => RequestError.network ""

/-- Whether an attempt ends the retry loop successfully: a 2xx response, or
    the special-cased 500 `no models configured` on `/model/info` (treated as
    an empty model list). -/
def attemptSucceeds (endpoint : String) (o : AttemptOutcome) : Option ResponseData :=
  match o with
  | AttemptOutcome.ok => some ResponseData.payload
  | AttemptOutcome.httpError status _ noModels =>
      if status == 500 && endpoint == "/model/info" && noModels then
        some ResponseData.emptyModelList
      else none
  | AttemptOutcome.netError _ => none

/-- The retry loop of `makeRequest` (`for attempt in 1..retryAttempts`).
    `attempt i` is the outcome of the i-th fetch; every thrown error —
    network, timeout, or non-2xx — is retried while attempts remain; the loop
    returns the last error once they run out.  Also returns the number of the
    attempt on which the loop stopped. -/
def makeRequestGo (endpoint : String) (attempt : Nat → AttemptOutcome) :
    Nat → Nat → Except RequestError ResponseData × Nat
  | attemptNo, 0 => (Except.error (attemptErrorOf (attempt attemptNo)), attemptNo)
  | attemptNo, remaining + 1 =>
      match attemptSucceeds endpoint (attempt attemptNo) with
      | some d => (Except.ok d, attemptNo)
      | none =>
          if remaining = 0 then
            (Except.error (attemptErrorOf (attempt attemptNo)), attemptNo)
          else
            makeRequestGo endpoint attempt (attemptNo + 1) remaining

/-- LiteLLMService.makeRequest: fail fast when the circuit breaker is open;
    otherwise run the retry loop, then record the overall success or failure
    on the breaker and return the result (re-throwing the last error after
    the final attempt). -/
def makeRequest (cfg : LiteLLMClientConfig) (endpoint : String)
    (attempt : Nat → AttemptOutcome) (now : Int) (br : BreakerState) :
    Except RequestError ResponseData × Nat × BreakerState :=
  let tripped := isCircuitBreakerTripped br now 30000
  if tripped.1 then
    (Except.error RequestError.circuitOpen, 0, tripped.2)
  else
    let run := makeRequestGo endpoint attempt 1 cfg.retryAttempts
    match run.1 with
    | Except.ok d => (Except.ok d, run.2, recordSuccess tripped.2)
    | Except.error e => (Except.error e, run.2, recordFailure now 5 tripped.2)

/-! ## C7 -/

/-- Counterexample to C7: with the default three configured attempts and a
    proxy answering 404 every time, the request is retried — the loop stops
    on attempt 3, not 1 — before the validation error surfaces, so an
    explicit 4xx error is not surfaced immediately. -/
theorem makeRequest_retries_4xx_counterexample :
    (makeRequest {} "/key/info"
        (fun i => AttemptOutcome.httpError 404 "Not Found" false) 0 {}).2.1 = 3 ∧
      (makeRequest {} "/key/info"
        (fun i => AttemptOutcome.httpError 404 "Not Found" false) 0 {}).1 =
        Except.error (RequestError.validation "LiteLLM API error: 404 - Not Found" 404) ∧
      (3 : Nat) ≠ 1 := by
  exact ⟨rfl, rfl, by decide⟩

/-- C7 (amended): with the breaker closed, every thrown attempt error —
    network, timeout, or non-2xx including 4xx — is retried until the
    configured attempt count is exhausted; the last attempt's error is then
    re-thrown (a 4xx surfaces as the validation error carrying the proxy's
    status and message, a network error as the caught error) and the failure
    is recorded on the breaker.  When the breaker is open and not timed out,
    the call fails fast with the unavailable error and zero attempts. -/
theorem makeRequest_retries_all_errors
    (cfg : LiteLLMClientConfig) (endpoint : String) (attempt : Nat → AttemptOutcome)
    (now : Int) (br : BreakerState)
    (hattempts : 1 ≤ cfg.retryAttempts)
    (hclosed : (isCircuitBreakerTripped br now 30000).1 = false)
    (hfail : ∀ i, 1 ≤ i → i ≤ cfg.retryAttempts → attemptSucceeds endpoint (attempt i) = none) :
    (makeRequest cfg endpoint attempt now br).1 =
        Except.error (attemptErrorOf (attempt cfg.retryAttempts)) ∧
      (makeRequest cfg endpoint attempt now br).2.1 = cfg.retryAttempts ∧
      (makeRequest cfg endpoint attempt now br).2.2 =
        recordFailure now 5 (isCircuitBreakerTripped br now 30000).2 ∧
      (∀ br2 : BreakerState, (isCircuitBreakerTripped br2 now 30000).1 = true →
        (makeRequest cfg endpoint attempt now br2).1 = Except.error RequestError.circuitOpen ∧
          (makeRequest cfg endpoint attempt now br2).2.1 = 0) := by
  have hgo : ∀ (fuel first : Nat), 1 ≤ fuel → first + fuel = cfg.retryAttempts + 1 →
      (∀ i, first ≤ i → i ≤ cfg.retryAttempts → attemptSucceeds endpoint (attempt i) = none) →
      makeRequestGo endpoint attempt first fuel =
        (Except.error (attemptErrorOf (attempt cfg.retryAttempts)), cfg.retryAttempts) := by
    intro fuel
    induction fuel with
    | zero => intro first h1; omega
    | succ r ih =>
        intro first h1 hsum hf
        rw [makeRequestGo]
        rw [hf first (le_refl first) (by omega)]
        by_cases hr0 : r = 0
        · subst hr0
          have : first = cfg.retryAttempts := by omega
          rw [this]
          simp
        · rw [if_neg hr0]
          exact ih (first + 1) (by omega) (by omega)
            (fun i hi1 hi2 => hf i (by omega) hi2)
  refine ⟨?_, ?_, ?_, ?_⟩
  · unfold makeRequest
    simp only [hclosed, Bool.false_eq_true, if_false]
    rw [hgo cfg.retryAttempts 1 hattempts (by omega) (fun i h1 h2 => hfail i h1 h2)]
  · unfold makeRequest
    simp only [hclosed, Bool.false_eq_true, if_false]
    rw [hgo cfg.retryAttempts 1 hattempts (by omega) (fun i h1 h2 => hfail i h1 h2)]
  · unfold makeRequest
    simp only [hclosed, Bool.false_eq_true, if_false]
    rw [hgo cfg.retryAttempts 1 hattempts (by omega) (fun i h1 h2 => hfail i h1 h2)]
  · intro br2 htripped
    simp [makeRequest, htripped]

/-- Witness for the amended C7: a concrete run with persistent network
    errors stops after the three configured attempts. -/
theorem makeRequest_retries_all_errors_witness :
    (makeRequest {} "/model/info" (fun i => AttemptOutcome.netError "ECONNREFUSED") 0 {}).2.1
      = 3 := by
  have h := makeRequest_retries_all_errors {} "/model/info"
    (fun i => AttemptOutcome.netError "ECONNREFUSED") 0 {} (by decide) rfl
    (fun i h1 h2 => rfl)
  exact h.2.1

end LiteMaaS
